import Mathlib

/-!
Verification of the Subconscious cognitive-middleware core.

This file gives a shallow embedding, in Lean 4, of the parts of the
repository that the checked claims are about: the four-layer memory system
(working / episodic / semantic / procedural), the memory manager, the
cognitive graph with spreading activation, the creative engine, and the
`Subconscious.think` orchestrator.

Modelling conventions:
* Python floats are modelled as exact rationals (`ℚ`); all constants of the
  code (0.05, 0.6, 0.7, ...) are exact decimal fractions, so the arithmetic
  of the claims is exact.
* Wall-clock reads (`time.time()`) inside a single operation are modelled as
  one explicit parameter `now : ℚ`.
* Freshly generated UUIDs are explicit `String` parameters.
* The global pseudo-random source is an abstract oracle stream (`Rng`): each
  draw yields an arbitrary natural, reduced modulo the candidate count.
* SQLite tables are modelled as lists of rows with `INSERT OR REPLACE`
  upsert semantics; the Chroma vector collection is a list of entries with
  an abstract embedding-similarity oracle.
* Python exceptions (`IndexError` from an empty deque, provider errors from
  the LLM adapter) are modelled with `Except`.
* Character classes are modelled over ASCII.
-/

namespace Subc

/-- Python `str.lower` (ASCII model), over the character list so that the
kernel can evaluate it. -/
def pyLower (s : String) : String := String.mk (s.data.map Char.toLower)

/-- Python `str.strip`: drop leading and trailing whitespace. -/
def pyStrip (s : String) : String :=
  String.mk
    (((s.data.dropWhile Char.isWhitespace).reverse.dropWhile
      Char.isWhitespace).reverse)

/-- Python slicing `s[:n]` in characters. -/
def pyTake (s : String) (n : ℕ) : String := String.mk (s.data.take n)

/-- Drop the last `n` characters. -/
def pyDropRight (s : String) (n : ℕ) : String :=
  String.mk (s.data.take (s.data.length - n))

/-- String length in characters. -/
def pyLen (s : String) : ℕ := s.data.length

/-- Newline-free join with a separator (`sep.join(parts)`). -/
def joinSep (sep : String) : List String → String
  | [] => ""
  | h :: t => t.foldl (fun acc x => acc ++ sep ++ x) h

/-- Python `s.lower().strip()` as used for graph-node and concept ids. -/
def pyNorm (s : String) : String := pyStrip (pyLower s)

/-- Whether the first list is an initial segment of the second. -/
def leadsWith [DecidableEq α] : List α → List α → Bool
  | [], _ => true
  | _ :: _, [] => false
  | a :: as, b :: bs => a = b && leadsWith as bs

/-- Whether the first list occurs contiguously inside the second. -/
def occursIn [DecidableEq α] (needle : List α) : List α → Bool
  | [] => needle.isEmpty
  | b :: bs => leadsWith needle (b :: bs) || occursIn needle bs

/-- Whether the first list is a final segment of the second. -/
def closesWith [DecidableEq α] (needle hay : List α) : Bool :=
  leadsWith needle.reverse hay.reverse

/-- Substring test: SQL `LIKE %q%` and Python `q in s` (case handled at call
sites). -/
def strContains (hay needle : String) : Bool :=
  occursIn needle.data hay.data

/-- Python `str.isdigit` (ASCII model): nonempty and all digits. -/
def pyIsDigit (s : String) : Bool :=
  !s.data.isEmpty && s.data.all Char.isDigit

/-- Stable insertion of one element into a descending-sorted list: the new
element goes after every earlier element that is not strictly smaller. -/
def insertDesc (gt : α → α → Bool) (x : α) : List α → List α
  | [] => [x]
  | y :: ys => if gt x y then x :: y :: ys else y :: insertDesc gt x ys

/-- Stable descending sort (models Python stable `sort(reverse=True)` and the
SQL `ORDER BY ... DESC` clauses). -/
def sortDesc (gt : α → α → Bool) (l : List α) : List α :=
  l.foldl (fun acc x => insertDesc gt x acc) []

/-- Insertion-ordered dict update on an association list: replace in place if
the key exists, otherwise append (Python `dict.__setitem__`). -/
def alistSet (d : List (String × ℚ)) (k : String) (v : ℚ) : List (String × ℚ) :=
  if d.any (fun p => p.1 = k) then
    d.map (fun p => if p.1 = k then (p.1, v) else p)
  else d ++ [(k, v)]

/-- Python `dict.update`: fold the right-hand dict into the left. -/
def alistUpdate (d new : List (String × ℚ)) : List (String × ℚ) :=
  new.foldl (fun acc p => alistSet acc p.1 p.2) d

/-- Deduplicate keeping the first occurrence (the `seen` set loop of
`_extract_concepts`). -/
def dedupKeepFirst (l : List String) : List String :=
  (l.foldl (fun (acc : List String × List String) w =>
    if acc.2.contains w then acc else (acc.1 ++ [w], w :: acc.2)) ([], [])).1

/-- Abstract pseudo-random oracle: a stream of naturals and a position. -/
structure Rng where
  seq : Nat → Nat
  pos : Nat

/-- Draw one value from the oracle. -/
def Rng.next (r : Rng) : Nat × Rng :=
  (r.seq r.pos, { r with pos := r.pos + 1 })

-- ─── Core enumerations (subconscious/core/types.py) ───

/-- Node type tags of the cognitive graph. -/
inductive NodeType where
  | CONCEPT | ENTITY | EVENT | PATTERN | HYPOTHESIS
deriving DecidableEq, Repr

/-- Edge type tags of the cognitive graph. -/
inductive EdgeType where
  | SEMANTIC | CAUSAL | TEMPORAL | ANALOGICAL | METAPHORICAL
  | CONTRADICTS | ENABLES | PART_OF | COOCCURRENCE
deriving DecidableEq, Repr

/-- Memory layer tags. -/
inductive MemoryType where
  | WORKING | EPISODIC | SEMANTIC | PROCEDURAL
deriving DecidableEq, Repr

/-- Creativity strategy tags. -/
inductive CreativityStrategy where
  | BISOCIATION | BLENDING | ANALOGY | LATERAL
deriving DecidableEq, Repr

/-- The string value of a `MemoryType` member. -/
def MemoryType.value : MemoryType → String
  | .WORKING => "working"
  | .EPISODIC => "episodic"
  | .SEMANTIC => "semantic"
  | .PROCEDURAL => "procedural"

/-- Parse a stored memory-type string, defaulting to EPISODIC as in
`_row_to_record`. -/
def parseMemoryType (s : String) : MemoryType :=
  if s = "working" then .WORKING
  else if s = "episodic" then .EPISODIC
  else if s = "semantic" then .SEMANTIC
  else if s = "procedural" then .PROCEDURAL
  else .EPISODIC

/-- MemoryRecord dataclass. `embedding` is omitted (never consulted by the
embedded operations). -/
structure MemoryRecord where
  content : String
  memory_type : MemoryType
  importance : ℚ
  domain : String
  tags : List String
  source : String
  memory_id : String
  timestamp : ℚ
  access_count : ℕ
deriving DecidableEq, Repr

/-- Association dataclass (a returned edge value, not the stored edge). -/
structure Association where
  source : String
  target : String
  edge_type : EdgeType
  weight : ℚ
  confidence : ℚ
  created_at : ℚ
  reinforced_count : ℕ
deriving DecidableEq, Repr

/-- ConceptNode dataclass (a returned node snapshot). -/
structure ConceptNode where
  name : String
  node_type : NodeType
  activation : ℚ
  importance : ℚ
  frequency : ℕ
  domain : String
  created_at : ℚ
  last_activated : ℚ
deriving DecidableEq, Repr

/-- Insight dataclass. -/
structure Insight where
  content : String
  confidence : ℚ
  source_concepts : List String
  insight_type : String
deriving DecidableEq, Repr

/-- CreativeSpark dataclass. -/
structure CreativeSpark where
  idea : String
  strategy : CreativityStrategy
  source_a : String
  source_b : String
  novelty : ℚ
  relevance : ℚ
deriving DecidableEq, Repr

-- ─── Configuration defaults (core/config.py) ───

/-- Default `ACTIVATION_DECAY`. -/
def ACTIVATION_DECAY : ℚ := 1/10

/-- Default `SPREAD_FACTOR`. -/
def SPREAD_FACTOR : ℚ := 6/10

-- ─── Working memory (memory/working.py) ───

/-- A bounded FIFO over opaque items, backed by `deque(maxlen=capacity)`. -/
structure WorkingMemory (α : Type) where
  capacity : ℕ
  items : List α
deriving DecidableEq, Repr

namespace WorkingMemory

/-- The `push` method. When the deque is at (or beyond) capacity the oldest
item `self._items[0]` is read out as overflow — on an empty deque that read
raises `IndexError`, modelled as `Except.error`. The append then keeps the
most recent `capacity` items (deque `maxlen` semantics). -/
def push (wm : WorkingMemory α) (item : α) :
    Except String (Option α × WorkingMemory α) :=
  if wm.items.length ≥ wm.capacity then
    match wm.items with
    | [] => .error "IndexError"

    | x :: _ =>
        let l := wm.items ++ [item]
        .ok (some x, { wm with items := l.drop (l.length - wm.capacity) })
  else
    .ok (none, { wm with items := wm.items ++ [item] })

/-- The `get_context` method: the current ordered snapshot. -/
def get_context (wm : WorkingMemory α) : List α := wm.items

/-- The `size` property. -/
def size (wm : WorkingMemory α) : ℕ := wm.items.length

/-- The `clear` method. -/
def clear (wm : WorkingMemory α) : WorkingMemory α := { wm with items := [] }

end WorkingMemory

/-- The dict shape pushed into working memory by `MemoryManager.remember`. -/
structure WMItem where
  content : String
  role : String
  memory_id : String
deriving DecidableEq, Repr

-- ─── Episodic memory (memory/episodic.py) ───

/-- One row of the SQLite `episodes` table. -/
structure EpRow where
  memory_id : String
  content : String
  memory_type : String
  importance : ℚ
  domain : String
  tags : List String
  source : String
  timestamp : ℚ
  access_count : ℕ
deriving DecidableEq, Repr

/-- The episodic store: the `episodes` table in rowid order. -/
structure EpisodicMemory where
  rows : List EpRow
deriving DecidableEq, Repr

namespace EpisodicMemory

/-- The `store` method: `INSERT OR REPLACE` keyed by `memory_id` (the old
row, if any, is deleted and the new row is appended). -/
def store (ep : EpisodicMemory) (r : MemoryRecord) : EpisodicMemory :=
  ⟨ep.rows.filter (fun row => row.memory_id ≠ r.memory_id) ++
    [{ memory_id := r.memory_id, content := r.content,
       memory_type := r.memory_type.value, importance := r.importance,
       domain := r.domain, tags := r.tags, source := r.source,
       timestamp := r.timestamp, access_count := r.access_count }]⟩

/-- The `_row_to_record` helper. -/
def rowToRecord (row : EpRow) : MemoryRecord :=
  { memory_id := row.memory_id, content := row.content,
    memory_type := parseMemoryType row.memory_type,
    importance := row.importance, domain := row.domain, tags := row.tags,
    source := row.source, timestamp := row.timestamp,
    access_count := row.access_count }

/-- The `search_content` method: `WHERE content LIKE %q% ORDER BY timestamp
DESC LIMIT n` (SQLite LIKE is ASCII case-insensitive). -/
def search_content (ep : EpisodicMemory) (query : String) (limit : ℕ) :
    List MemoryRecord :=
  ((sortDesc (fun a b => decide (b.timestamp < a.timestamp))
      (ep.rows.filter (fun row =>
        strContains (pyLower row.content) (pyLower query)))).take limit).map
    rowToRecord

/-- The `recall_by_domain` method. -/
def recall_by_domain (ep : EpisodicMemory) (domain : String) (limit : ℕ) :
    List MemoryRecord :=
  ((sortDesc (fun a b => decide (b.timestamp < a.timestamp))
      (ep.rows.filter (fun row => row.domain = domain))).take limit).map
    rowToRecord

/-- Membership by id (the retrievability predicate of the claims). -/
def hasId (ep : EpisodicMemory) (id : String) : Bool :=
  ep.rows.any (fun row => row.memory_id = id)

end EpisodicMemory

-- ─── Semantic memory (memory/semantic.py) ───

/-- One entry of the Chroma collection: document plus stored metadata. -/
structure SemEntry where
  id : String
  document : String
  memory_type : String
  importance : ℚ
  domain : String
  tags : List String
  source : String
  timestamp : ℚ
  access_count : ℕ
deriving DecidableEq, Repr

/-- The semantic store. The embedding model is external to the repository,
so cosine similarity between a query and a stored document is an abstract
oracle `sim` (spec: the store does not depend on a specific model). -/
structure SemanticMemory where
  entries : List SemEntry
  sim : String → String → ℚ

/-- One hit returned by `SemanticMemory.search` (the `metadata` field of the
Python result dict carries the stored metadata; it is not consulted by any
embedded caller and is omitted). -/
structure SemHit where
  memory_id : String
  content : String
  similarity : ℚ
deriving DecidableEq, Repr

namespace SemanticMemory

/-- The `store` method: Chroma `upsert` keyed by id. -/
def store (sm : SemanticMemory) (r : MemoryRecord) : SemanticMemory :=
  let e : SemEntry :=
    { id := r.memory_id, document := r.content,
      memory_type := r.memory_type.value, importance := r.importance,
      domain := r.domain, tags := r.tags, source := r.source,
      timestamp := r.timestamp, access_count := r.access_count }
  if sm.entries.any (fun x => x.id = r.memory_id) then
    { sm with entries := sm.entries.map (fun x =>
        if x.id = r.memory_id then e else x) }
  else
    { sm with entries := sm.entries ++ [e] }

/-- The `search` method: domain filter when the domain argument is truthy,
nearest `min(n, max(count, 1))` entries by similarity, then the truthy
`min_similarity` cut. Result similarities are reported exactly (the Python
code rounds for display to 4 decimals). -/
def search (sm : SemanticMemory) (query : String) (n_results : ℕ)
    (min_similarity : Option ℚ) (domain : Option String) : List SemHit :=
  let filtered :=
    match domain with
    | some d => if d = "" then sm.entries else
        sm.entries.filter (fun e => e.domain = d)
    | none => sm.entries
  let nr := min n_results (max sm.entries.length 1)
  let ranked :=
    (sortDesc (fun a b => decide (sm.sim query b.document < sm.sim query a.document))
      filtered).take nr
  let hits := ranked.map (fun e =>
    ({ memory_id := e.id, content := e.document,
       similarity := sm.sim query e.document } : SemHit))
  match min_similarity with
  | some ms => if ms = 0 then hits else
      hits.filter (fun h => decide (ms ≤ h.similarity))
  | none => hits

/-- Membership by id. -/
def hasId (sm : SemanticMemory) (id : String) : Bool :=
  sm.entries.any (fun e => e.id = id)

end SemanticMemory

-- ─── Procedural memory (memory/procedural.py) ───

/-- One row of the SQLite `procedures` table. -/
structure ProcRow where
  memory_id : String
  content : String
  pattern_type : String
  domain : String
  tags : List String
  success_count : ℕ
  fail_count : ℕ
  importance : ℚ
  timestamp : ℚ
  last_used : ℚ
deriving DecidableEq, Repr

/-- The procedural store. -/
structure ProceduralMemory where
  rows : List ProcRow
deriving DecidableEq, Repr

namespace ProceduralMemory

/-- The `store` method: `INSERT OR REPLACE`, resetting the counters to
success 1 / fail 0 and using the record timestamp for `last_used`. -/
def store (pm : ProceduralMemory) (r : MemoryRecord)
    (pattern_type : String := "solution") : ProceduralMemory :=
  ⟨pm.rows.filter (fun row => row.memory_id ≠ r.memory_id) ++
    [{ memory_id := r.memory_id, content := r.content,
       pattern_type := pattern_type, domain := r.domain, tags := r.tags,
       success_count := 1, fail_count := 0, importance := r.importance,
       timestamp := r.timestamp, last_used := r.timestamp }]⟩

/-- The `_row_to_record` helper of the procedural store. -/
def rowToRecord (row : ProcRow) : MemoryRecord :=
  { memory_id := row.memory_id, content := row.content,
    memory_type := .PROCEDURAL, importance := row.importance,
    domain := row.domain, tags := row.tags,
    source := "success:" ++ toString row.success_count ++ " fail:" ++
      toString row.fail_count,
    timestamp := row.timestamp, access_count := row.success_count }

/-- The `search_content` method: `LIKE %q% ORDER BY importance DESC`. -/
def search_content (pm : ProceduralMemory) (query : String) (limit : ℕ) :
    List MemoryRecord :=
  ((sortDesc (fun a b => decide (b.importance < a.importance))
      (pm.rows.filter (fun row =>
        strContains (pyLower row.content) (pyLower query)))).take limit).map
    rowToRecord

end ProceduralMemory

-- ─── Memory manager (memory/manager.py) ───

/-- The four-layer memory coordinator. -/
structure MemoryManager where
  working : WorkingMemory WMItem
  episodic : EpisodicMemory
  semantic : SemanticMemory
  procedural : ProceduralMemory

namespace MemoryManager

/-- The `remember` method. `rid` is the fresh UUID of the new record, `oid`
the fresh UUID of a potential working-overflow record, `now` the timestamp.
The working-memory push can raise (empty zero-capacity deque), which
propagates as in Python. -/
def remember (mgr : MemoryManager) (content : String)
    (memory_type : MemoryType := .EPISODIC) (importance : ℚ := 1/2)
    (domain : String := "") (tags : List String := []) (source : String := "")
    (rid : String := "") (oid : String := "") (now : ℚ := 0) :
    Except String (MemoryRecord × MemoryManager) :=
  let record : MemoryRecord :=
    { content := content, memory_type := memory_type,
      importance := importance, domain := domain, tags := tags,
      source := source, memory_id := rid, timestamp := now,
      access_count := 0 }
  -- an IndexError raised by the push propagates out of remember
  match mgr.working.push
    { content := content,
      role := if source = "user" ∨ source = "assistant" then source
              else "system",
      memory_id := record.memory_id } with
  | .error e => .error e
  | .ok pushed =>
      let working2 := pushed.2
      let episodic1 :=
        match pushed.1 with
        | some ov =>
            mgr.episodic.store
              { content := ov.content, memory_type := .EPISODIC,
                importance := 2/5, domain := "", tags := [],
                source := "working_overflow", memory_id := oid,
                timestamp := now, access_count := 0 }
        | none => mgr.episodic
      -- route by layer; the final `else` branch of the Python code (reached
      -- for WORKING) stores into episodic
      let (episodic2, semantic1, procedural1) :=
        match memory_type with
        | .EPISODIC => (episodic1.store record, mgr.semantic, mgr.procedural)
        | .SEMANTIC => (episodic1, mgr.semantic.store record, mgr.procedural)
        | .PROCEDURAL => (episodic1, mgr.semantic, mgr.procedural.store record)
        | .WORKING => (episodic1.store record, mgr.semantic, mgr.procedural)
      let semantic2 :=
        if importance ≥ 3/5 then semantic1.store record else semantic1
      .ok (record,
        { working := working2, episodic := episodic2, semantic := semantic2,
          procedural := procedural1 })

/-- The per-layer result of `recall`, keyed as in the returned dict
(`working`, `episodic`, `semantic`, `procedural` in insertion order). -/
structure RecallResults where
  working : List WMItem
  episodic : List MemoryRecord
  semantic : List SemHit
  procedural : List MemoryRecord
deriving Repr

/-- The `recall` method (named `recallLayers` here because `recall` is a
reserved word in this Lean environment): working-layer case-insensitive
substring filter, episodic by domain or content, semantic vector search,
procedural content search. -/
def recallLayers (mgr : MemoryManager) (query : String) (n_results : ℕ := 5)
    (domain : Option String := none) : RecallResults :=
  { working := mgr.working.get_context.filter (fun item =>
      strContains (pyLower item.content) (pyLower query)),
    episodic :=
      (match domain with
      | some d => mgr.episodic.recall_by_domain d n_results
      | none => mgr.episodic.search_content query n_results),
    semantic := mgr.semantic.search query n_results none domain,
    procedural := mgr.procedural.search_content query n_results }

end MemoryManager

-- ─── Cognitive graph (graph/cognitive.py) ───

/-- Node attribute dict of the `networkx` multigraph. Metadata values are
treated as opaque strings. -/
structure NodeData where
  name : String
  node_type : NodeType
  domain : String
  importance : ℚ
  frequency : ℕ
  activation : ℚ
  created_at : ℚ
  last_activated : ℚ
  metadata : List (String × String)
deriving DecidableEq, Repr

/-- Edge attribute dict. -/
structure EdgeData where
  edge_type : EdgeType
  weight : ℚ
  confidence : ℚ
  reinforced_count : ℕ
  created_at : ℚ
  metadata : List (String × String)
deriving DecidableEq, Repr

/-- One stored multi-edge: ordered endpoints plus the `networkx` integer
key distinguishing parallel edges. -/
structure GEdge where
  src : String
  tgt : String
  key : ℕ
  data : EdgeData
deriving DecidableEq, Repr

/-- The typed directed multigraph, as an insertion-ordered node dict and the
edge list in insertion order. -/
structure CognitiveGraph where
  nodes : List (String × NodeData)
  edges : List GEdge
deriving DecidableEq, Repr

namespace CognitiveGraph

/-- The membership test `self._graph.has_node(id)`. -/
def hasNode (g : CognitiveGraph) (id : String) : Bool :=
  g.nodes.any (fun p => p.1 = id)

/-- Attribute lookup for a node id. -/
def nodeData (g : CognitiveGraph) (id : String) : Option NodeData :=
  (g.nodes.find? (fun p => p.1 = id)).map (fun p => p.2)

/-- In-place node attribute update. -/
def setNode (g : CognitiveGraph) (id : String) (d : NodeData) :
    CognitiveGraph :=
  { g with nodes := g.nodes.map (fun p => if p.1 = id then (p.1, d) else p) }

/-- The `_node_to_concept` helper. -/
def nodeToConcept (g : CognitiveGraph) (id : String) : ConceptNode :=
  match g.nodeData id with
  | some d =>
      { name := d.name, node_type := d.node_type, activation := d.activation,
        importance := d.importance, frequency := d.frequency,
        domain := d.domain, created_at := d.created_at,
        last_activated := d.last_activated }
  | none =>
      -- unreachable at every call site (the node was just added or found)
      { name := id, node_type := .CONCEPT, activation := 0,
        importance := 1/2, frequency := 1, domain := "", created_at := 0,
        last_activated := 0 }

/-- The `add_concept` method: reinforce an existing node (frequency,
last-activated refresh, importance max, domain fill) or create a fresh one
with activation 0 and frequency 1. -/
def add_concept (g : CognitiveGraph) (name : String)
    (node_type : NodeType := .CONCEPT) (domain : String := "")
    (importance : ℚ := 1/2) (metadata : List (String × String) := [])
    (now : ℚ := 0) : CognitiveGraph × ConceptNode :=
  let node_id := pyNorm name
  let g1 :=
    match g.nodeData node_id with
    | some d =>
        g.setNode node_id
          { d with
            frequency := d.frequency + 1,
            last_activated := now,
            importance := if importance > d.importance then importance
                          else d.importance,
            domain := if domain ≠ "" ∧ d.domain = "" then domain
                      else d.domain }
    | none =>
        { g with nodes := g.nodes ++
            [(node_id,
              { name := name, node_type := node_type, domain := domain,
                importance := importance, frequency := 1, activation := 0,
                created_at := now, last_activated := now,
                metadata := metadata })] }
  (g1, g1.nodeToConcept node_id)

/-- The `get_concept` method. -/
def get_concept (g : CognitiveGraph) (name : String) : Option ConceptNode :=
  let node_id := pyNorm name
  if g.hasNode node_id then some (g.nodeToConcept node_id) else none

/-- The `_find_edge` helper: the key of the first stored edge of the given
type between the ordered pair, if any. -/
def findEdge (g : CognitiveGraph) (src tgt : String) (edge_type : EdgeType) :
    Option ℕ :=
  (g.edges.find? (fun e =>
    e.src = src ∧ e.tgt = tgt ∧ e.data.edge_type = edge_type)).map
    (fun e => e.key)

/-- The `connect` method: auto-create missing endpoints, reinforce an
existing same-type edge (weight +0.05 saturating at 1, count +1) or insert a
fresh edge. The returned `Association` is built from the caller arguments
with the dataclass defaults for `created_at` and `reinforced_count`. -/
def connect (g : CognitiveGraph) (source target : String)
    (edge_type : EdgeType := .SEMANTIC) (weight : ℚ := 1/2)
    (confidence : ℚ := 1) (now : ℚ := 0) : CognitiveGraph × Association :=
  let src := pyNorm source
  let tgt := pyNorm target
  let g1 := if g.hasNode src then g
    else (g.add_concept source .CONCEPT "" (1/2) [] now).1
  let g2 := if g1.hasNode tgt then g1 else
    (g1.add_concept target .CONCEPT "" (1/2) [] now).1
  let g3 :=
    match g2.findEdge src tgt edge_type with
    | some k =>
        { g2 with edges := g2.edges.map (fun e =>
            if e.src = src ∧ e.tgt = tgt ∧ e.key = k then
              { e with data :=
                { e.data with
                  weight := min 1 (e.data.weight + 1/20),
                  reinforced_count := e.data.reinforced_count + 1 } }
            else e) }
    | none =>
        { g2 with edges := g2.edges ++
            [{ src := src, tgt := tgt,
               key := (g2.edges.filter (fun e =>
                 e.src = src ∧ e.tgt = tgt)).length,
               data :=
                 { edge_type := edge_type, weight := weight,
                   confidence := confidence, reinforced_count := 1,
                   created_at := now, metadata := [] } }] }
  (g3,
   { source := source, target := target, edge_type := edge_type,
     weight := weight, confidence := confidence, created_at := now,
     reinforced_count := 1 })

/-- The `connect_cooccurrence` method: connect every ordered pair (i < j) of
distinct-normalized concepts with a co-occurrence edge. -/
def connect_cooccurrence (g : CognitiveGraph) (concepts : List String)
    (weight : ℚ := 3/10) (now : ℚ := 0) : CognitiveGraph :=
  match concepts with
  | [] => g
  | a :: rest =>
      let g1 := rest.foldl (fun acc b =>
        if pyNorm a ≠ pyNorm b then
          (acc.connect a b .COOCCURRENCE weight 1 now).1
        else acc) g
      g1.connect_cooccurrence rest weight now

/-- One entry returned by `get_neighbors` (the `target_data` node snapshot
of the Python dict is not consulted by any embedded caller and is
omitted). -/
structure Neighbor where
  target : String
  edge_type : EdgeType
  weight : ℚ
deriving DecidableEq, Repr

/-- The `get_neighbors` method: outgoing then incoming edges, filtered by a
truthy edge-type list and a minimum weight. -/
def get_neighbors (g : CognitiveGraph) (name : String)
    (edge_types : Option (List EdgeType) := none) (min_weight : ℚ := 0) :
    List Neighbor :=
  let node_id := pyNorm name
  if ¬ g.hasNode node_id then []
  else
    let keep (d : EdgeData) : Bool :=
      (match edge_types with
       | some ts => ts.isEmpty || ts.contains d.edge_type
       | none => true) && decide (min_weight ≤ d.weight)
    (g.edges.filter (fun e => e.src = node_id)).filterMap (fun e =>
      if keep e.data then
        some { target := e.tgt, edge_type := e.data.edge_type,
               weight := e.data.weight }
      else none) ++
    (g.edges.filter (fun e => e.tgt = node_id)).filterMap (fun e =>
      if keep e.data then
        some { target := e.src, edge_type := e.data.edge_type,
               weight := e.data.weight }
      else none)

/-- One step of the spreading-activation worklist loop. The queue holds
`(node, strength, depth)` triples; each node is visited at most once; a
visit clamps the new activation at 1 and refreshes `last_activated`; from a
visit at depth `d < depth` the outgoing neighbors are enqueued with strength
`s × spread × weight` and the incoming ones with an extra 0.7 factor, both
under the 0.01 cutoff. Adjacency is iterated in global edge-insertion
order. `fuel` only forces termination and is chosen large enough that the
worklist always empties first. -/
def activateAux (spread : ℚ) (depth : ℕ) (now : ℚ) :
    ℕ → List (String × ℚ × ℕ) → List String → List (String × ℚ) →
    CognitiveGraph → List (String × ℚ) × CognitiveGraph
  | 0, _, _, acc, g => (acc, g)
  | _ + 1, [], _, acc, g => (acc, g)
  | fuel + 1, (current, cs, cd) :: rest, visited, acc, g =>
      if visited.contains current ∨ cd > depth then
        activateAux spread depth now fuel rest visited acc g
      else
        let visited1 := current :: visited
        let oldAct := ((g.nodeData current).map (fun d => d.activation)).getD 0
        let newAct := min 1 (oldAct + cs)
        let g1 :=
          match g.nodeData current with
          | some d => g.setNode current
              { d with activation := newAct, last_activated := now }
          | none => g
        let acc1 := acc ++ [(current, newAct)]
        let enq :=
          if cd < depth then
            (g1.edges.filter (fun e => e.src = current)).filterMap (fun e =>
              let propagated := cs * spread * e.data.weight
              if ¬ visited1.contains e.tgt ∧ propagated > 1/100 then
                some (e.tgt, propagated, cd + 1)
              else none) ++
            (g1.edges.filter (fun e => e.tgt = current)).filterMap (fun e =>
              let propagated := cs * spread * e.data.weight * (7/10)
              if ¬ visited1.contains e.src ∧ propagated > 1/100 then
                some (e.src, propagated, cd + 1)
              else none)
          else []
        activateAux spread depth now fuel (rest ++ enq) visited1 acc1 g1

/-- Worklist fuel: one unit for the seed plus, per possible visit, one unit
per edge-endpoint it can enqueue (each node is visited at most once, and a
visit enqueues at most `2 × edges` entries). -/
def activateFuel (g : CognitiveGraph) : ℕ :=
  g.nodes.length * (2 * g.edges.length + 1) + 2

/-- The `activate` method: bounded breadth-first spreading activation from
the seed. Returns the id-to-activation map (in visit order) and the mutated
graph. The `decay` parameter is accepted and defaulted exactly as in the
source, which never uses it afterwards. -/
def activate (g : CognitiveGraph) (name : String) (strength : ℚ := 1)
    (depth : ℕ := 2) (decay : Option ℚ := none) (now : ℚ := 0) :
    List (String × ℚ) × CognitiveGraph :=
  let _decay : ℚ :=
    match decay with
    | none => ACTIVATION_DECAY
    | some x => if x = 0 then ACTIVATION_DECAY else x
  let node_id := pyNorm name
  if ¬ g.hasNode node_id then ([], g)
  else
    activateAux SPREAD_FACTOR depth now (activateFuel g)
      [(node_id, strength, 0)] [] [] g

/-- The `decay_all` method. A `None` or zero rate falls back to
`ACTIVATION_DECAY` (Python truthiness of `rate or settings.ACTIVATION_DECAY`);
each activation is decremented and clamped at 0. -/
def decay_all (g : CognitiveGraph) (rate : Option ℚ := none) :
    CognitiveGraph :=
  let r : ℚ :=
    match rate with
    | none => ACTIVATION_DECAY
    | some x => if x = 0 then ACTIVATION_DECAY else x
  { g with nodes := g.nodes.map (fun p =>
      (p.1, { p.2 with activation := max 0 (p.2.activation - r) })) }

/-- The `get_most_active` method: node snapshots sorted by activation
descending (stable, as Python list sort), truncated. -/
def get_most_active (g : CognitiveGraph) (limit : ℕ := 10) :
    List ConceptNode :=
  (sortDesc (fun a b => decide (b.activation < a.activation))
    (g.nodes.map (fun p => g.nodeToConcept p.1))).take limit

-- ─── Persistence (save / _load) ───

/-- One node entry of the `node_link_data` document. -/
structure DocNode where
  id : String
  data : NodeData
deriving DecidableEq, Repr

/-- The self-describing persisted graph document written by `save` (the JSON
text layer is left out: Python JSON round-trips every emitted value). -/
structure GraphDoc where
  directed : Bool
  multigraph : Bool
  nodes : List DocNode
  edges : List GEdge
deriving DecidableEq, Repr

/-- The `save` method: `nx.node_link_data` over the current graph. -/
def save (g : CognitiveGraph) : GraphDoc :=
  { directed := true, multigraph := true,
    nodes := g.nodes.map (fun p => { id := p.1, data := p.2 }),
    edges := g.edges }

/-- Node insertion as performed by `node_link_graph` reconstruction:
overwrite the attributes of an existing id, else append. -/
def loadNode (acc : List (String × NodeData)) (dn : DocNode) :
    List (String × NodeData) :=
  if acc.any (fun p => p.1 = dn.id) then
    acc.map (fun p => if p.1 = dn.id then (p.1, dn.data) else p)
  else acc ++ [(dn.id, dn.data)]

/-- Edge insertion as performed by `node_link_graph` reconstruction: an
explicit key overwrites an existing `(src, tgt, key)` edge, else appends. -/
def loadEdge (acc : List GEdge) (e : GEdge) : List GEdge :=
  if acc.any (fun x => x.src = e.src ∧ x.tgt = e.tgt ∧ x.key = e.key) then
    acc.map (fun x =>
      if x.src = e.src ∧ x.tgt = e.tgt ∧ x.key = e.key then e else x)
  else acc ++ [e]

/-- The `_load` reconstruction of a well-formed document:
`nx.node_link_graph(data, directed=True, multigraph=True)` adds every listed
node and then every listed edge. -/
def loadDoc (doc : GraphDoc) : CognitiveGraph :=
  { nodes := doc.nodes.foldl loadNode [],
    edges := doc.edges.foldl loadEdge [] }

/-- Structural well-formedness of the in-memory graph: node ids are unique
(they key a dict) and so are `(src, tgt, key)` edge triples. -/
def Wellformed (g : CognitiveGraph) : Prop :=
  (g.nodes.map (fun p => p.1)).Nodup ∧
  (g.edges.map (fun e => (e.src, e.tgt, e.key))).Nodup

-- ─── Random walk (needed by the creative engine) ───

/-- The symmetric candidate edge list of one walk step: outgoing edges plus
incoming edges with the endpoints flipped. -/
def walkCandidates (g : CognitiveGraph) (current : String) :
    List (String × EdgeData) :=
  (g.edges.filter (fun e => e.src = current)).map (fun e => (e.tgt, e.data)) ++
  (g.edges.filter (fun e => e.tgt = current)).map (fun e => (e.src, e.data))

/-- The `random_walk` method. The weighted draw of `random.choices` is
modelled by the oracle choosing an arbitrary candidate index; the
walk-shaping weights (`1/max(w, 0.01)` when preferring distant edges) do
not change the support of the draw, which is all that the embedded callers
depend on. -/
def random_walk (g : CognitiveGraph) (start : Option String := none)
    (steps : ℕ := 5) (rng : Rng := ⟨fun _ => 0, 0⟩) : List String × Rng :=
  let nodeIds := g.nodes.map (fun p => p.1)
  match nodeIds with
  | [] => ([], rng)
  | n0 :: _ =>
      let pick : Rng → Rng × String := fun r =>
        let (k, r1) := r.next
        (r1, (nodeIds.get? (k % nodeIds.length)).getD n0)
      let (start0, rng1) :=
        match start with
        | some s =>
            let sid := pyNorm s
            if g.hasNode sid then (sid, rng) else
              let (r1, c) := pick rng
              (c, r1)
        | none =>
            let (r1, c) := pick rng
            (c, r1)
      let step : String × List String × Rng → String × List String × Rng :=
        fun st =>
          let (current, path, r) := st
          let cands := walkCandidates g current
          match cands with
          | [] =>
              let (r1, c) := pick r
              (c, path ++ [c], r1)
          | c0 :: _ =>
              let (k, r1) := r.next
              let nxt := ((cands.get? (k % cands.length)).getD c0).1
              (nxt, path ++ [nxt], r1)
      let final := (List.range steps).foldl (fun st _ => step st)
        (start0, [start0], rng1)
      (final.2.1, final.2.2)

/-- Breadth-first shortest-path distance on the undirected projection
(`nx.shortest_path_length`); `none` models "no path". -/
def bfsDist (g : CognitiveGraph) (a b : String) : Option ℕ :=
  let rec go : ℕ → List (String × ℕ) → List String → Option ℕ
    | 0, _, _ => none
    | _ + 1, [], _ => none
    | fuel + 1, (x, d) :: rest, seen =>
        if x = b then some d
        else if seen.contains x then go fuel rest seen
        else
          let nbrs := (walkCandidates g x).map (fun p => p.1)
          go fuel (rest ++ nbrs.map (fun y => (y, d + 1))) (x :: seen)
  go (g.nodes.length * (2 * g.edges.length + 1) + 2) [(a, 0)] []

/-- The `find_distant_pairs` method: unordered pairs of the undirected
projection at distance at least 3 (unreachable pairs count as infinitely
distant and sort first), sorted by decreasing distance, truncated. -/
def find_distant_pairs (g : CognitiveGraph) (limit : ℕ := 5) :
    List (String × String × Option ℕ) :=
  if g.nodes.length < 2 then []
  else
    let nodeIds := g.nodes.map (fun p => p.1)
    let rec pairsOf : List String → List (String × String × Option ℕ)
      | [] => []
      | a :: rest =>
          rest.filterMap (fun b =>
            match bfsDist g a b with
            | some d => if d ≥ 3 then some (a, b, some d) else none
            | none => some (a, b, (none : Option ℕ))) ++ pairsOf rest
    let far : Option ℕ → Option ℕ → Bool := fun x y =>
      match x, y with
      | none, some _ => true
      | some dx, some dy => decide (dy < dx)
      | _, _ => false
    (sortDesc (fun p q => far p.2.2 q.2.2) (pairsOf nodeIds)).take limit

end CognitiveGraph

-- ─── LLM adapter contract (adapters/ollama.py and core/mind.py usage) ───

/-- One chat message. -/
structure ChatMsg where
  role : String
  content : String
deriving DecidableEq, Repr

/-- The provider interface consumed by the core: `chat` over a message list
and `generate` over a single prompt with a temperature. Provider failures
(network or parse errors raised by the underlying client) are `Except`
errors. -/
structure Adapter where
  model_name : String
  chat : List ChatMsg → ℚ → Except String String
  generate : String → ℚ → Except String String

-- ─── Creative engine (creative/engine.py) ───

namespace Creative

open CognitiveGraph

/-- The placeholder spark used when the graph is too small
(`_create_spark_without_graph`). -/
def sparkWithoutGraph (adapter : Option Adapter) (context : String)
    (strategy : CreativityStrategy) : Except String CreativeSpark := do
  let idea ←
    match adapter with
    | some a =>
        a.generate ("Yaratıcı düşünme — strateji belirli\nKonu: " ++
          (if context = "" then "genel" else context)) (9/10)
    | none => pure ("[" ++ (if context = "" then "konu" else context) ++
        "] hakkında henüz yeterli bağlantı yok, daha fazla bilgi gerekli.")
  return { idea := idea, strategy := strategy, source_a := context,
           source_b := "", novelty := 1/2, relevance := 1/2 }

/-- The `_bisociate_pair` helper: ask the LLM for a common ground, or emit
the deterministic placeholder naming the two sources. Novelty 0.8. -/
def bisociatePair (adapter : Option Adapter) (a b : String) :
    Except String CreativeSpark := do
  let idea ←
    match adapter with
    | some ad =>
        ad.generate ("İki farklı kavram arasında yaratıcı bir bağlantı kur:\nKavram A: "
          ++ a ++ "\nKavram B: " ++ b) (9/10)
    | none => pure ("[" ++ a ++ "] ve [" ++ b ++
        "] arasında keşfedilmemiş bir bağlantı olabilir.")
  return { idea := idea, strategy := .BISOCIATION, source_a := a,
           source_b := b, novelty := 8/10, relevance := 1/2 }

/-- The `_blend_pair` helper. Novelty 0.7. -/
def blendPair (adapter : Option Adapter) (a b : String) :
    Except String CreativeSpark := do
  let idea ←
    match adapter with
    | some ad =>
        ad.generate ("Kavramsal karışım (Conceptual Blending):\nUzay A: " ++ a ++
          "\nUzay B: " ++ b) (85/100)
    | none => pure ("[" ++ a ++ "] + [" ++ b ++
        "] karışımı → yeni bir kavram potansiyeli.")
  return { idea := idea, strategy := .BLENDING, source_a := a,
           source_b := b, novelty := 7/10, relevance := 1/2 }

/-- The `_analogize_pair` helper. Novelty 0.65. -/
def analogizePair (adapter : Option Adapter) (source target : String) :
    Except String CreativeSpark := do
  let idea ←
    match adapter with
    | some ad =>
        ad.generate ("Analojik akıl yürütme:\nKaynak alan: " ++ source ++
          "\nHedef alan: " ++ target) (8/10)
    | none => pure (source ++ " : X = " ++ target ++
        " : ? → yapısal transfer potansiyeli.")
  return { idea := idea, strategy := .ANALOGY, source_a := source,
           source_b := target, novelty := 65/100, relevance := 1/2 }

/-- The `_extract_related_pair` helper: two context-mentioned node ids, or
the two most active concepts, or an oracle-chosen pair. -/
def extractRelatedPair (g : CognitiveGraph) (context : String) (rng : Rng) :
    Option (String × String) × Rng :=
  let nodeIds := g.nodes.map (fun p => p.1)
  if nodeIds.length < 2 then (none, rng)
  else
    let mentioned := nodeIds.filter (fun n => strContains (pyLower context) n)
    if mentioned.length ≥ 2 then
      (match mentioned with
       | a :: b :: _ => (some (a, b), rng)
       | _ => (none, rng))
    else
      let active := g.get_most_active 5
      match active with
      | a0 :: a1 :: _ => (some (a0.name, a1.name), rng)
      | _ =>
          let (k1, r1) := rng.next
          let (k2, r2) := r1.next
          let n := nodeIds.length
          let i := k1 % n
          let j0 := k2 % (n - 1)
          let j := if j0 ≥ i then j0 + 1 else j0
          (some ((nodeIds.get? i).getD "", (nodeIds.get? j).getD ""), r2)

/-- The `_bisociate` strategy: a pair sampled from the top of
`find_distant_pairs`, else a random node pair, else the graphless
placeholder. -/
def bisociate (g : CognitiveGraph) (adapter : Option Adapter)
    (context : String) (rng : Rng) : Except String (CreativeSpark × Rng) := do
  let distant := g.find_distant_pairs 5
  match distant with
  | [] =>
      let nodeIds := g.nodes.map (fun p => p.1)
      if nodeIds.length < 2 then do
        let s ← sparkWithoutGraph adapter context .BISOCIATION
        return (s, rng)
      else do
        let (k1, r1) := rng.next
        let (k2, r2) := r1.next
        let n := nodeIds.length
        let i := k1 % n
        let j0 := k2 % (n - 1)
        let j := if j0 ≥ i then j0 + 1 else j0
        let s ← bisociatePair adapter ((nodeIds.get? i).getD "")
          ((nodeIds.get? j).getD "")
        return (s, r2)
  | d0 :: _ => do
      let top := distant.take 3
      let (k, r1) := rng.next
      let p := (top.get? (k % top.length)).getD d0
      let s ← bisociatePair adapter p.1 p.2.1
      return (s, r1)

/-- The `_blend` strategy. -/
def blend (g : CognitiveGraph) (adapter : Option Adapter) (context : String)
    (rng : Rng) : Except String (CreativeSpark × Rng) := do
  let (pair, r1) := extractRelatedPair g context rng
  match pair with
  | none => do
      let s ← sparkWithoutGraph adapter context .BLENDING
      return (s, r1)
  | some (a, b) => do
      let s ← blendPair adapter a b
      return (s, r1)

/-- The `_analogize` strategy. -/
def analogize (g : CognitiveGraph) (adapter : Option Adapter)
    (context : String) (rng : Rng) : Except String (CreativeSpark × Rng) := do
  let (pair, r1) := extractRelatedPair g context rng
  match pair with
  | none => do
      let s ← sparkWithoutGraph adapter context .ANALOGY
      return (s, r1)
  | some (a, b) => do
      let s ← analogizePair adapter a b
      return (s, r1)

/-- The `_lateral_jump` strategy: a 4-step distant-preferring random walk,
whose endpoint is injected as a disruptive perspective. Novelty 0.9. -/
def lateralJump (g : CognitiveGraph) (adapter : Option Adapter)
    (context : String) (rng : Rng) : Except String (CreativeSpark × Rng) := do
  let nodeIds := g.nodes.map (fun p => p.1)
  match nodeIds with
  | [] => do
      let s ← sparkWithoutGraph adapter context .LATERAL
      return (s, rng)
  | n0 :: _ => do
      let (path, r1) := g.random_walk none 4 rng
      let distant := (path.getLast? ).getD n0
      let idea ←
        match adapter with
        | some ad =>
            ad.generate ("Yanal düşünme (Lateral Thinking):\nMevcut konu: " ++
              (if context = "" then "genel" else context) ++
              "\nRastgele enjekte edilen kavram: " ++ distant) (95/100)
        | none => pure ("Ya [" ++
            (if context = "" then "konuya" else context) ++ "] [" ++
            distant ++ "] perspektifinden baksaydık?")
      return ({ idea := idea, strategy := .LATERAL, source_a := context,
                source_b := distant, novelty := 9/10, relevance := 1/2 }, r1)

/-- Strategy selection order of the `CreativityStrategy` enum. -/
def strategyOfNat (k : ℕ) : CreativityStrategy :=
  match k % 4 with
  | 0 => .BISOCIATION
  | 1 => .BLENDING
  | 2 => .ANALOGY
  | _ => .LATERAL

/-- Dispatch one strategy (the body of the `spark` loop; every strategy
returns a spark, so the `if spark` guard of the source always passes). -/
def runStrategy (g : CognitiveGraph) (adapter : Option Adapter)
    (context : String) (strat : CreativityStrategy) (rng : Rng) :
    Except String (CreativeSpark × Rng) :=
  match strat with
  | .BISOCIATION => bisociate g adapter context rng
  | .BLENDING => blend g adapter context rng
  | .ANALOGY => analogize g adapter context rng
  | .LATERAL => lateralJump g adapter context rng

/-- The `spark` method: a fixed strategy repeated `n` times, or `n`
oracle-sampled strategies, each dispatched in order. -/
def spark (g : CognitiveGraph) (adapter : Option Adapter)
    (context : String := "") (strategy : Option CreativityStrategy := none)
    (n : ℕ := 1) (rng : Rng := ⟨fun _ => 0, 0⟩) :
    Except String (List CreativeSpark × Rng) := do
  let (strategies, rng1) :=
    match strategy with
    | some s => (List.replicate n s, rng)
    | none =>
        (List.range n).foldl (fun (acc : List CreativityStrategy × Rng) _ =>
          let (k, r1) := acc.2.next
          (acc.1 ++ [strategyOfNat k], r1)) ([], rng)
  let out ← strategies.foldlM
    (fun (acc : List CreativeSpark × Rng) strat => do
      let (s, r1) ← runStrategy g adapter context strat acc.2
      return (acc.1 ++ [s], r1)) (([], rng1) : List CreativeSpark × Rng)
  return out

end Creative

-- ─── Mind orchestrator (core/mind.py) ───

/-- The `think` result record. -/
structure ThinkResult where
  response : String
  associations : List Association
  insights : List Insight
  creative_sparks : List CreativeSpark
  activated_concepts : List (String × ℚ)
  recalled_memories : List MemoryRecord
deriving Repr

/-- The Turkish/English stop-word set of `core/mind.py` (the Python frozenset
literal; duplicate literals are harmless for membership). -/
def STOP_WORDS : List String :=
  ["bir", "bu", "de", "da", "ve", "ile", "için", "gibi", "ama", "çok",
   "ne", "nasıl", "mi", "mu", "mı", "var", "yok", "daha", "en", "ben",
   "sen", "biz", "siz", "onlar", "olan", "olarak", "kadar", "sonra",
   "öyle", "böyle", "şey", "şu", "her", "bazı", "tüm", "hep", "hiç",
   "ise", "ki", "çünkü", "zaten", "ayrıca", "sadece", "yani", "hatta",
   "ancak", "fakat", "veya", "hem", "ya", "peki", "evet", "hayır",
   "olur", "olup", "eder", "eden", "etmek", "yapmak",
   "olması", "olduğu", "olduğunu", "olmak", "olabilir",
   "yapılır", "yapılan", "edilir", "edilen", "kullanılır", "kullanılan",
   "sağlar", "sağlayan", "içerir", "içeren", "bulunur", "bulunan",
   "üzerine", "üzerinde", "arasında", "arasındaki", "hakkında",
   "konuşalım", "konuşmak", "konuşurken", "konuştuğumuzda",
   "oluşumu", "gelişimi", "etkisini", "etkisi", "etkiler",
   "bağlıdır", "yapısı", "sürecinde", "süreçtir",
   "nedenle", "yüzünden", "dolayı", "karşı", "tarafından",
   "örneğin", "mesela", "özellikle", "genellikle", "oldukça",
   "birçok", "birden", "fazla", "büyük", "küçük", "yeni", "eski",
   "the", "a", "an", "is", "are", "was", "were", "be", "been", "being",
   "have", "has", "had", "do", "does", "did", "will", "would", "could",
   "should", "may", "might", "must", "shall", "can", "to", "of", "in",
   "for", "on", "with", "at", "by", "from", "it", "this", "that", "i",
   "you", "he", "she", "we", "they", "me", "my", "your", "his", "her",
   "not", "but", "or", "and", "if", "so", "no", "yes", "also", "just",
   "like", "how", "what", "when", "where", "which", "who", "about",
   "into", "through", "during", "before", "after", "above", "below",
   "between", "each", "other", "some", "such", "than", "too", "very",
   "use", "using", "used", "make", "made", "because", "while"]

/-- The Turkish suffix alternation groups of `_extract_concepts`, one list
per regex pattern, alternatives in source order. -/
def suffixGroups : List (List String) :=
  [["ların", "lerin", "ları", "leri", "ında", "inde", "ınca", "ince"],
   ["ıyla", "iyle", "ının", "inin", "ıdır", "idir", "ması", "mesi"],
   ["arak", "erek", "ığını", "iğini", "ılır", "ilir", "ınır", "inir"],
   ["deki", "daki", "teki", "taki", "sını", "sini", "ünü", "unu"],
   ["abilir", "ebilir", "abilecek", "ebilecek"],
   ["mekte", "makta", "mektedir", "maktadır"]]

/-- A word character of the regex class `\w` (ASCII model). -/
def isWordChar (c : Char) : Bool := c.isAlphanum || c = '_'

/-- Maximal word-character runs of length ≥ 4: the matches of the regex
`\b\w{4,}\b`. -/
def tokenizeWords (s : String) : List String :=
  let rec go : List Char → List Char → List String
    | [], cur => if cur.isEmpty then [] else [String.mk cur.reverse]
    | c :: rest, cur =>
        if isWordChar c then go rest (c :: cur)
        else if cur.isEmpty then go rest []
        else String.mk cur.reverse :: go rest []
  (go s.data []).filter (fun w => pyLen w ≥ 4)

/-- One `re.sub(pattern, '', w)` application for an end-anchored alternation
group: the leftmost match wins, i.e. the longest matching suffix, with ties
broken by alternative order. -/
def stripGroup (alts : List String) (w : String) : String :=
  let best := alts.foldl (fun (acc : Option String) s =>
    if closesWith s.data w.data then
      match acc with
      | none => some s
      | some b => if pyLen s > pyLen b then some s else acc
    else acc) none
  match best with
  | some suf => pyDropRight w (pyLen suf)
  | none => w

/-- The `_extract_concepts` helper: lowercase, tokenize to 4+ character
word runs, strip Turkish suffixes, drop short or stop or numeric words,
deduplicate preserving order, truncate to 15. -/
def extract_concepts (text : String) : List String :=
  let words := tokenizeWords (pyLower text)
  let cleaned := (words.map (fun w =>
    suffixGroups.foldl (fun acc g => stripGroup g acc) w)).filter
    (fun w => pyLen w ≥ 4)
  let concepts := cleaned.filter (fun w =>
    ¬ STOP_WORDS.contains w ∧ ¬ pyIsDigit w)
  (dedupKeepFirst concepts).take 15

/-- Two-decimal formatting of a rational, as the `.2f` format spec. -/
def fmt2 (q : ℚ) : String :=
  let scaled : ℤ := round (q * 100)
  let sign := if scaled < 0 then "-" else ""
  let a := scaled.natAbs
  sign ++ toString (a / 100) ++ "." ++
    (if a % 100 < 10 then "0" else "") ++ toString (a % 100)

/-- The `_build_context` helper: message, up to 5 layer-tagged recalled
memories truncated to 150 characters, the top-8 activated concepts, and the
min-weight-0.3 neighbors of the top-3 activated concepts. -/
def buildContext (message : String) (rr : MemoryManager.RecallResults)
    (activated : List (String × ℚ)) (g : CognitiveGraph) : String :=
  let parts0 := ["Kullanıcı mesajı: " ++ message ++ "\n"]
  let allMemories :=
    rr.working.map (fun it => "  [working] " ++ pyTake it.content 150) ++
    rr.episodic.map (fun r => "  [episodic] " ++ pyTake r.content 150) ++
    rr.semantic.map (fun h => "  [semantic] " ++ pyTake h.content 150) ++
    rr.procedural.map (fun r => "  [procedural] " ++ pyTake r.content 150)
  let parts1 :=
    if allMemories.isEmpty then parts0
    else parts0 ++ ["İlgili bellekler:\n" ++
      joinSep "\n" (allMemories.take 5)]
  let parts2 :=
    if activated.isEmpty then parts1
    else
      let top := (sortDesc (fun a b => decide (b.2 < a.2)) activated).take 8
      parts1 ++ ["\nAktif kavramlar: " ++ joinSep ", "
        (top.map (fun p => p.1 ++ " (" ++ fmt2 p.2 ++ ")"))]
  let parts3 := (activated.take 3).foldl (fun acc p =>
    let neighbors := g.get_neighbors p.1 none (3/10)
    if neighbors.isEmpty then acc
    else acc ++ ["    " ++ p.1 ++ " → " ++ joinSep ", "
      ((neighbors.take 5).map (fun n => n.target))]) parts2
  joinSep "\n" parts3

/-- The `_build_summary` helper: the deterministic no-LLM response, built
from the extracted concepts, the top activated concepts, and the count of
recalled records. -/
def buildSummary (rr : MemoryManager.RecallResults)
    (activated : List (String × ℚ)) (concepts : List String) : String :=
  let parts0 := ["[Bilişsel analiz sonuçları]"]
  let parts1 :=
    if concepts.isEmpty then parts0
    else parts0 ++ ["Çıkarılan kavramlar: " ++ joinSep ", " concepts]
  let parts2 :=
    if activated.isEmpty then parts1
    else
      let top := (sortDesc (fun a b => decide (b.2 < a.2)) activated).take 5
      parts1 ++ ["Aktif ağ: " ++ joinSep ", "
        (top.map (fun p => p.1 ++ "(" ++ fmt2 p.2 ++ ")"))]
  let total := rr.working.length + rr.episodic.length +
    rr.semantic.length + rr.procedural.length
  joinSep "\n"
    (parts2 ++ ["Bellekten " ++ toString total ++ " ilgili kayıt bulundu."])

/-- A sentence terminator of the regex class `[.!?]`. -/
def isTerminator (c : Char) : Bool := c = '.' || c = '!' || c = '?'

mutual

/-- Sentence splitting at the regex `[.!?]\s+`: the terminator and the
following whitespace run are consumed. -/
def splitGo : List Char → List Char → List String
  | [], cur => [String.mk cur.reverse]
  | c :: rest, cur =>
      if isTerminator c &&
          (match rest.head? with
           | some r => r.isWhitespace
           | none => false) then
        String.mk cur.reverse :: splitAfter rest
      else splitGo rest (c :: cur)

/-- The splitter state inside the separator whitespace run. -/
def splitAfter : List Char → List String
  | [] => [""]
  | c :: rest =>
      if c.isWhitespace then splitAfter rest else splitGo (c :: rest) []

end

/-- The sentence list of a response text. -/
def splitSentences (s : String) : List String := splitGo s.data []

/-- The insight marker words of `_extract_insights`. -/
def insightMarkers : List String :=
  ["ilginç", "bağlantı", "belki", "aslında", "dikkat çekici",
   "interesting", "connection", "perhaps"]

/-- The `_extract_insights` helper: marker-bearing sentences become
confidence-0.6 intuition insights, at most 3. -/
def extract_insights (response : String) (concepts : List String) :
    List Insight :=
  (((splitSentences response).filter (fun sent =>
    insightMarkers.any (fun m => strContains (pyLower sent) m))).map
    (fun sent =>
      ({ content := pyStrip sent, confidence := 3/5,
         source_concepts := concepts.take 3,
         insight_type := "intuition" } : Insight))).take 3

/-- The system prompt of `think` (adjacent Python string literals
concatenate without separators). -/
def systemPrompt : String :=
  "Sen derin düşünce yeteneğine sahip bir bilinçaltı AI'sın. " ++
  "Kullanıcıya kısa, öz ve doğru yanıtlar ver. Gerçek bilgi sun, genel tekrardan kaçın. " ++
  "Farklı disiplinler arası bağlantılar kur (biyoloji↔bilgisayar, psikoloji↔matematik vb). " ++
  "Her yanıtında:" ++
  "1) Konunun özünü açıkla (kısa, net)" ++
  "2) Beklenmedik bir bağlantı kur (başka bir alandan)" ++
  "3) Somut bir örnek ver" ++
  "Asla genel, tekrarlayan, boş cümleler kurma. Her cümle bilgi taşımalı."

/-- The mind orchestrator state. -/
structure Subconscious where
  adapter : Option Adapter
  memory : MemoryManager
  graph : CognitiveGraph
  conversation : List ChatMsg

namespace Subconscious

/-- The `think` method. `now` stands for the wall clock during the call,
`idU`/`oidU` and `idA`/`oidA` are the fresh UUIDs for the user-turn and
assistant-turn records (and their potential working-overflow records), and
`rng` feeds the creative engine. Provider errors from the chat call and the
`IndexError` of a zero-capacity working memory propagate, exactly as the
unguarded Python calls do. -/
def think (mind : Subconscious) (message : String)
    (include_creative : Bool) (n_creative : ℕ) (now : ℚ)
    (idU oidU idA oidA : String) (rng : Rng) :
    Except String (ThinkResult × Subconscious) := do
  -- 1. concept extraction
  let concepts := extract_concepts message
  -- 2. memory recall; every hit is repackaged as an EPISODIC MemoryRecord
  -- whose importance falls back through the dict keys
  -- importance → similarity → 0.5 (fresh dataclass defaults are modelled
  -- as the empty id and the call timestamp)
  let recall_results := mind.memory.recallLayers message 5 none
  let pack : String → ℚ → MemoryRecord := fun content importance =>
    { content := content, memory_type := .EPISODIC,
      importance := importance, domain := "", tags := [], source := "",
      memory_id := "", timestamp := now, access_count := 0 }
  let recalled : List MemoryRecord :=
    recall_results.working.map (fun it => pack it.content (1/2)) ++
    recall_results.episodic.map (fun r => pack r.content r.importance) ++
    recall_results.semantic.map (fun h => pack h.content h.similarity) ++
    recall_results.procedural.map (fun r => pack r.content r.importance)
  -- 3. spreading activation from each extracted concept
  let actFold := concepts.foldl
    (fun (st : List (String × ℚ) × CognitiveGraph) c =>
      let (res, g1) := st.2.activate c (8/10) 2 none now
      (alistUpdate st.1 res, g1)) ([], mind.graph)
  let activated_concepts := actFold.1
  -- 4. add the concepts to the graph and connect co-occurrences
  let g2 := concepts.foldl
    (fun g c => (g.add_concept c .CONCEPT "" (1/2) [] now).1) actFold.2
  let g3 := if concepts.length > 1 then
    g2.connect_cooccurrence concepts (3/10) now else g2
  -- 5. produce the response: LLM chat when an adapter is present, else the
  -- deterministic cognitive summary
  let step5 : Except String (String × List Insight) :=
    match mind.adapter with
    | some adapter => do
        let context := buildContext message recall_results
          activated_concepts g3
        let msgs : List ChatMsg :=
          ({ role := "system", content := systemPrompt } : ChatMsg) ::
          (mind.conversation.drop (mind.conversation.length - 6) ++
            [{ role := "user", content := context }])
        let response ← adapter.chat msgs (7/10)
        pure (response, extract_insights response concepts)
    | none =>
        pure (buildSummary recall_results activated_concepts concepts, [])
  let (response, insights) ← step5
  -- 6. record the conversation turn
  let conversation1 := mind.conversation ++
    [{ role := "user", content := message },
     { role := "assistant", content := response }]
  -- 7. store both turns in memory
  let rem1 ← mind.memory.remember message .EPISODIC (1/2) ""
    (concepts.take 5) "user" idU oidU now
  let rem2 ← rem1.2.remember (pyTake response 500) .EPISODIC (2/5) "" []
    "assistant" idA oidA now
  -- 8. creative sparks over the mutated graph
  let sparked ←
    if include_creative ∧ g3.nodes.length ≥ 2 then
      Creative.spark g3 mind.adapter message none n_creative rng
    else pure ([], rng)
  -- 9. persist the graph (the written document is external state)
  let _doc := g3.save
  return ({ response := response,
            associations := (concepts.take 3).flatMap (fun c =>
              (activated_concepts.take 5).filterMap (fun p =>
                if p.1 ≠ pyLower c then some
                  ({ source := c, target := p.1, edge_type := .SEMANTIC,
                     weight := p.2, confidence := 1, created_at := now,
                     reinforced_count := 1 } : Association)
                else none)),
            insights := insights,
            creative_sparks := sparked.1,
            activated_concepts := activated_concepts,
            recalled_memories := recalled.take 5 },
          { mind with
            graph := g3
            memory := rem2.2
            conversation := conversation1 })

end Subconscious

-- ─── Concrete instances used by witnesses and counterexamples ───

/-- The empty cognitive graph. -/
def gEmpty : CognitiveGraph := ⟨[], []⟩

/-- The activation-spread scenario graph of the spec: nodes x, y, z (all at
activation 0) with edges x→y (semantic, 0.8) and y→z (semantic, 0.5). -/
def graphC5 : CognitiveGraph :=
  let g1 := (gEmpty.add_concept "x").1
  let g2 := (g1.add_concept "y").1
  let g3 := (g2.add_concept "z").1
  let g4 := (g3.connect "x" "y" .SEMANTIC (8/10) 1 0).1
  (g4.connect "y" "z" .SEMANTIC (1/2) 1 0).1

/-- A one-node graph with x at activation 0. -/
def gX : CognitiveGraph := (gEmpty.add_concept "x").1

/-- A one-node graph with x at activation 0.6 (an earlier depth-0 activation
of strength 0.6 at time 0). -/
def gX2 : CognitiveGraph := (gX.activate "x" (3/5) 0 none 0).2

/-- An empty four-layer memory manager with the default working capacity 7
and a trivial embedding oracle. -/
def mgr0 : MemoryManager :=
  { working := ⟨7, []⟩, episodic := ⟨[]⟩,
    semantic := { entries := [], sim := fun _ _ => 0 },
    procedural := ⟨[]⟩ }

/-- An adapter whose provider calls always fail (network down). -/
def failingAdapter : Adapter :=
  { model_name := "m",
    chat := fun _ _ => .error "ProviderError",
    generate := fun _ _ => .error "ProviderError" }

/-- A fresh mind wired to the failing adapter. -/
def mind0 : Subconscious :=
  { adapter := some failingAdapter, memory := mgr0, graph := gEmpty,
    conversation := [] }

/-- A fixed oracle stream. -/
def rng0 : Rng := ⟨fun _ => 0, 0⟩

/-- Iterated `connect` with identical arguments (n calls in succession). -/
def connectTimes (g : CognitiveGraph) (s t : String) (τ : EdgeType)
    (w c now : ℚ) : ℕ → CognitiveGraph
  | 0 => g
  | n + 1 => ((connectTimes g s t τ w c now n).connect s t τ w c now).1

/-- The edge filter of the C4 statement: stored edges of type τ from the
normalized source to the normalized target. -/
def edgeMatch (s t : String) (τ : EdgeType) (e : GEdge) : Bool :=
  e.src = pyNorm s ∧ e.tgt = pyNorm t ∧ e.data.edge_type = τ

/-- A graph holding one a→b semantic edge of weight 0.5. -/
def gAB : CognitiveGraph := (gEmpty.connect "a" "b" .SEMANTIC (1/2) 1 0).1

/-- The reinforcement update that `connect` maps over the edge list when a
same-type edge with key k already joins the ordered pair. -/
def reinfEdge (src tgt : String) (k : ℕ) (e : GEdge) : GEdge :=
  if e.src = src ∧ e.tgt = tgt ∧ e.key = k then
    { e with data :=
      { e.data with
        weight := min 1 (e.data.weight + 1/20),
        reinforced_count := e.data.reinforced_count + 1 } }
  else e

/-- The fresh edge appended by `connect` when no same-type edge exists. -/
def freshEdge (g : CognitiveGraph) (s t : String) (τ : EdgeType)
    (w c now : ℚ) : GEdge :=
  { src := pyNorm s, tgt := pyNorm t,
    key := (g.edges.filter (fun e =>
      e.src = pyNorm s ∧ e.tgt = pyNorm t)).length,
    data := { edge_type := τ, weight := w, confidence := c,
              reinforced_count := 1, created_at := now, metadata := [] } }

-- ─── Theorems ───

/-- A successful `add_concept` never touches the edge list. -/
theorem add_concept_edges (g : CognitiveGraph) (name : String)
    (nt : NodeType) (dom : String) (imp : ℚ) (md : List (String × String))
    (now : ℚ) : ((g.add_concept name nt dom imp md now).1).edges = g.edges := by
  unfold CognitiveGraph.add_concept
  cases h : g.nodeData (pyNorm name) <;>
    simp [h, CognitiveGraph.setNode]

/-- The endpoint auto-creation phase of `connect` never touches the edge
list. -/
theorem connect_pre_edges (g : CognitiveGraph) (source : String)
    (now : ℚ) :
    (if g.hasNode (pyNorm source) then g
     else (g.add_concept source .CONCEPT "" (1/2) [] now).1).edges =
      g.edges := by
  split
  · rfl
  · exact add_concept_edges ..

unseal Rat.add Rat.mul Rat.inv Rat.sub in
/-- C9: for every call to `connect(source, target, type, weight,
confidence)`, the returned `Association` carries the caller-supplied weight
and confidence and `reinforced_count = 1`, regardless of the branch taken;
in particular, a second identical `connect("a","b",semantic,0.5)` call
leaves a stored edge with weight 0.55 and count 2 while still returning
weight 0.5 and count 1. -/
theorem claim_C9_connect_returns_caller_values :
    (∀ (g : CognitiveGraph) (source target : String) (τ : EdgeType)
       (w c now : ℚ),
       (g.connect source target τ w c now).2 =
         { source := source, target := target, edge_type := τ, weight := w,
           confidence := c, created_at := now, reinforced_count := 1 }) ∧
    (gAB.connect "a" "b" .SEMANTIC (1/2) 1 0).2.weight = 1/2 ∧
    (gAB.connect "a" "b" .SEMANTIC (1/2) 1 0).2.reinforced_count = 1 ∧
    ((gAB.connect "a" "b" .SEMANTIC (1/2) 1 0).1.edges.map
      (fun e => (e.data.weight, e.data.reinforced_count))) = [(11/20, 2)] := by
  refine ⟨fun g source target τ w c now => rfl, rfl, rfl, by decide⟩

/-- C10: `decay_all` with rate 0 behaves exactly like `decay_all` with the
rate omitted — the falsy rate is replaced by `ACTIVATION_DECAY`, so every
node activation drops by `ACTIVATION_DECAY`, clamped at 0. -/
theorem claim_C10_decay_zero_rate_uses_default :
    ∀ g : CognitiveGraph,
      g.decay_all (some 0) = g.decay_all none ∧
      (g.decay_all (some 0)).nodes = g.nodes.map (fun p =>
        (p.1, { p.2 with
                activation := max 0 (p.2.activation - ACTIVATION_DECAY) })) := by
  intro g
  constructor
  · rfl
  · rfl

unseal Rat.add Rat.mul Rat.inv Rat.sub in
/-- C5: on the graph with nodes x, y, z at activation 0 and edges x→y
(semantic, 0.8) and y→z (semantic, 0.5), `activate("x", 1.0, depth=2)` with
`SPREAD_FACTOR = 0.6` returns exactly the map x↦1.0, y↦0.48, z↦0.144, each
value also stored as the node's post-call activation; a seed at y further
shows the extra 0.7 attenuation on the incoming edge (x receives
1.0 × 0.6 × 0.8 × 0.7 = 0.336) and each node appears exactly once. -/
theorem claim_C5_activation_spread_scenario :
    (graphC5.activate "x" 1 2 none 9).1 =
      [("x", 1), ("y", 12/25), ("z", 18/125)] ∧
    (((graphC5.activate "x" 1 2 none 9).2.nodeData "x").map
      (fun d => d.activation)) = some 1 ∧
    (((graphC5.activate "x" 1 2 none 9).2.nodeData "y").map
      (fun d => d.activation)) = some (12/25) ∧
    (((graphC5.activate "x" 1 2 none 9).2.nodeData "z").map
      (fun d => d.activation)) = some (18/125) ∧
    (graphC5.activate "y" 1 2 none 9).1 =
      [("y", 1), ("z", 3/10), ("x", 42/125)] := by
  refine ⟨by decide, by decide, by decide, by decide, by decide⟩

/-- C7 (counterexample): a `WorkingMemory` of capacity 0 is already full
(`size ≥ capacity`), yet `push` raises `IndexError` (reading `_items[0]`
from the empty deque) instead of returning an evicted oldest item. -/
theorem claim_C7_counterexample :
    (WorkingMemory.push (⟨0, []⟩ : WorkingMemory ℕ) 42) =
      .error "IndexError" ∧
    (⟨0, []⟩ : WorkingMemory ℕ).size ≥ (⟨0, []⟩ : WorkingMemory ℕ).capacity := by
  exact ⟨rfl, le_refl 0⟩

/-- C7 (amended): every successful push leaves `size ≤ capacity`; and for
capacity ≥ 1, a push onto a full working memory returns the evicted oldest
item and retains exactly the most recent `capacity` items in FIFO order.
(With capacity 0 the push on the vacuously full empty memory raises
`IndexError` instead.) -/
theorem claim_C7_push_bounds_and_fifo :
    (∀ (α : Type) (wm : WorkingMemory α) (it : α) (o : Option α)
       (wm2 : WorkingMemory α),
       wm.push it = .ok (o, wm2) → wm2.size ≤ wm.capacity) ∧
    (∀ (α : Type) (wm : WorkingMemory α) (it : α),
       1 ≤ wm.capacity → wm.items.length = wm.capacity →
       wm.push it = .ok (wm.items.head?,
         ⟨wm.capacity, (wm.items ++ [it]).drop 1⟩)) := by
  constructor
  · intro α wm it o wm2 h
    obtain ⟨cap, items⟩ := wm
    unfold WorkingMemory.push at h
    dsimp only at h
    split at h
    · rename_i hge
      cases items with
      | nil => exact Except.noConfusion h
      | cons x xs =>
          simp only [Except.ok.injEq, Prod.mk.injEq] at h
          obtain ⟨-, h2⟩ := h
          subst h2
          simp only [WorkingMemory.size, List.length_drop,
            List.length_append, List.length_cons, List.length_nil]
          omega
    · rename_i hlt
      simp only [Except.ok.injEq, Prod.mk.injEq] at h
      obtain ⟨-, h2⟩ := h
      subst h2
      simp only [WorkingMemory.size, List.length_append, List.length_cons,
        List.length_nil]
      simp only [not_le] at hlt
      omega
  · intro α wm it hcap hfull
    obtain ⟨cap, items⟩ := wm
    dsimp only at hcap hfull ⊢
    unfold WorkingMemory.push
    dsimp only
    rw [if_pos (le_of_eq hfull.symm)]
    cases items with
    | nil =>
        exfalso
        simp only [List.length_nil] at hfull
        omega
    | cons x xs =>
        simp only [List.head?_cons, Except.ok.injEq, Prod.mk.injEq,
          WorkingMemory.mk.injEq, true_and]
        have h1 : ((x :: xs) ++ [it]).length - cap = 1 := by
          simp only [List.length_append, List.length_cons, List.length_nil]
            at hfull ⊢
          omega
        rw [h1]

/-- C7 (witness for the amended theorem): pushing 30 onto the full
capacity-2 memory [10, 20] evicts 10 and retains [20, 30]. -/
theorem claim_C7_push_bounds_and_fifo_witness :
    WorkingMemory.push (⟨2, [10, 20]⟩ : WorkingMemory ℕ) 30 =
      .ok (([10, 20] : List ℕ).head?,
        ⟨2, (([10, 20] : List ℕ) ++ [30]).drop 1⟩) :=
  claim_C7_push_bounds_and_fifo.2 ℕ ⟨2, [10, 20]⟩ 30 (by decide) (by decide)

/-- A node id with attribute data is a member of the graph. -/
theorem hasNode_of_nodeData {g : CognitiveGraph} {id : String}
    {d : NodeData} (h : g.nodeData id = some d) : g.hasNode id = true := by
  unfold CognitiveGraph.nodeData at h
  unfold CognitiveGraph.hasNode
  cases hf : g.nodes.find? (fun p => p.1 = id) with
  | none => rw [hf] at h; exact Option.noConfusion h
  | some p =>
      have hp := List.find?_some hf
      have hm := List.mem_of_find?_eq_some hf
      simp only [List.any_eq_true]
      exact ⟨p, hm, hp⟩

/-- C8 (amended): for an existing concept x with prior attribute record d,
`activate(x, s, depth=0)` returns exactly the singleton map
x ↦ min(1, d.activation + s) — which equals {x: s} only when the prior
activation is 0 and s ≤ 1 — and the sole state change is rewriting x's
attributes to the same record with the new activation and a refreshed
`last_activated`; all other nodes and all edges are untouched. -/
theorem claim_C8_depth_zero_activation (g : CognitiveGraph) (x : String)
    (s now : ℚ) (d : NodeData) (h : g.nodeData (pyNorm x) = some d) :
    g.activate x s 0 none now =
      ([(pyNorm x, min 1 (d.activation + s))],
       g.setNode (pyNorm x)
         { d with activation := min 1 (d.activation + s),
                  last_activated := now }) := by
  have hn := hasNode_of_nodeData h
  simp only [CognitiveGraph.activate, hn, not_true_eq_false, if_false,
    Bool.true_eq_false]
  rw [show CognitiveGraph.activateFuel g =
    (g.nodes.length * (2 * g.edges.length + 1) + 1) + 1 from rfl]
  simp only [CognitiveGraph.activateAux, List.contains_nil, Bool.false_eq_true,
    lt_self_iff_false, gt_iff_lt, false_or, if_false, h, Option.map_some,
    Option.getD_some, List.nil_append, List.append_nil]
  rfl

/-- C8 (witness): on the one-node graph with x at activation 0, a depth-0
activation of strength 0.6 at time 4 returns x ↦ min(1, 0 + 0.6) and only
rewrites x's activation and last-activated fields. -/
theorem claim_C8_depth_zero_activation_witness :
    gX.activate "x" (3/5) 0 none 4 =
      ([(pyNorm "x", min 1 ((0 : ℚ) + 3/5))],
       gX.setNode (pyNorm "x")
         { name := "x", node_type := .CONCEPT, domain := "",
           importance := 1/2, frequency := 1,
           activation := min 1 ((0 : ℚ) + 3/5), created_at := 0,
           last_activated := 4, metadata := [] }) :=
  claim_C8_depth_zero_activation gX "x" (3/5) 4
    { name := "x", node_type := .CONCEPT, domain := "", importance := 1/2,
      frequency := 1, activation := 0, created_at := 0, last_activated := 0,
      metadata := [] } rfl

unseal Rat.add Rat.mul Rat.inv Rat.sub in
/-- C8 (counterexample): with x already at activation 0.6 (and
last-activated 0), `activate("x", 0.6, depth=0)` at time 7 returns
x ↦ 1.0 ≠ 0.6 — not the map {x: s} — and also rewrites x's
`last_activated` from 0 to 7, so a field other than the activation
changes. -/
theorem claim_C8_depth_zero_activation_counterexample :
    (gX2.activate "x" (3/5) 0 none 7).1 = [("x", 1)] ∧
    (gX2.activate "x" (3/5) 0 none 7).1 ≠ [("x", 3/5)] ∧
    ((gX2.activate "x" (3/5) 0 none 7).2.nodeData "x").map
      (fun d => d.last_activated) = some 7 ∧
    (gX2.nodeData "x").map (fun d => d.last_activated) = some 0 := by
  refine ⟨by decide, by decide, by decide, by decide⟩

/-- Reconstruction of a duplicate-free node list replays it verbatim. -/
theorem loadNode_fold (l : List (String × NodeData))
    (h1 : (l.map Prod.fst).Nodup) :
    ∀ acc : List (String × NodeData),
      (∀ p ∈ l, ∀ q ∈ acc, q.1 ≠ p.1) →
      (l.map (fun p => ({ id := p.1, data := p.2 } : CognitiveGraph.DocNode))).foldl
        CognitiveGraph.loadNode acc = acc ++ l := by
  induction l with
  | nil => intro acc _; simp
  | cons p rest ih =>
      intro acc hd
      simp only [List.map_cons, List.foldl_cons]
      have hnone : acc.any (fun q => q.1 = p.1) = false := by
        rw [List.any_eq_false]
        intro q hq
        simpa using hd p (List.mem_cons_self p rest) q hq
      rw [show CognitiveGraph.loadNode acc { id := p.1, data := p.2 } =
          acc ++ [(p.1, p.2)] by
        simp only [CognitiveGraph.loadNode, hnone, Bool.false_eq_true,
          if_false]]
      rw [ih (by simpa using h1.of_cons) (acc ++ [(p.1, p.2)]) ?_]
      · simp
      · intro r hr q hq
        rcases List.mem_append.1 hq with hq | hq
        · exact hd r (List.mem_cons_of_mem p hr) q hq
        · simp only [List.mem_singleton] at hq
          subst hq
          simp only [List.map_cons, List.nodup_cons, List.mem_map] at h1
          exact fun he => h1.1 ⟨r, hr, he.symm⟩

/-- Reconstruction of an edge list with duplicate-free (src, tgt, key)
triples replays it verbatim. -/
theorem loadEdge_fold (l : List GEdge)
    (h1 : (l.map (fun e => (e.src, e.tgt, e.key))).Nodup) :
    ∀ acc : List GEdge,
      (∀ e ∈ l, ∀ x ∈ acc, ¬ (x.src = e.src ∧ x.tgt = e.tgt ∧ x.key = e.key)) →
      l.foldl CognitiveGraph.loadEdge acc = acc ++ l := by
  induction l with
  | nil => intro acc _; simp
  | cons e rest ih =>
      intro acc hd
      simp only [List.foldl_cons]
      have hnone : acc.any
          (fun x => x.src = e.src ∧ x.tgt = e.tgt ∧ x.key = e.key) = false := by
        rw [List.any_eq_false]
        intro x hx
        simpa using hd e (List.mem_cons_self e rest) x hx
      rw [show CognitiveGraph.loadEdge acc e = acc ++ [e] by
        simp only [CognitiveGraph.loadEdge, hnone, Bool.false_eq_true,
          if_false]]
      rw [ih (by simpa using h1.of_cons) (acc ++ [e]) ?_]
      · simp
      · intro r hr x hx
        rcases List.mem_append.1 hx with hx | hx
        · exact hd r (List.mem_cons_of_mem e hr) x hx
        · simp only [List.mem_singleton] at hx
          subst hx
          simp only [List.map_cons, List.nodup_cons, List.mem_map] at h1
          intro he
          exact h1.1 ⟨r, hr, by
            obtain ⟨ha, hb, hc⟩ := he
            simp [ha, hb, hc]⟩

/-- C6: for every structurally well-formed in-memory graph (unique node ids
and unique (src, tgt, key) edge triples — the invariants of the networkx
multigraph), reconstructing a fresh graph from the document written by
`save` yields a graph equal to the original on all nodes with their
attributes and all edges with their attributes including type. -/
theorem claim_C6_save_load_roundtrip (g : CognitiveGraph)
    (h : CognitiveGraph.Wellformed g) :
    CognitiveGraph.loadDoc (CognitiveGraph.save g) = g := by
  obtain ⟨h1, h2⟩ := h
  cases g with
  | mk nodes edges =>
      simp only [CognitiveGraph.loadDoc, CognitiveGraph.save]
      congr 1
      · simpa using loadNode_fold nodes h1 [] (by simp)
      · simpa using loadEdge_fold edges h2 [] (by simp)

/-- C6 (witness): the x/y/z scenario graph is well-formed and round-trips
through save and reload. -/
theorem claim_C6_save_load_roundtrip_witness :
    CognitiveGraph.loadDoc (CognitiveGraph.save graphC5) = graphC5 :=
  claim_C6_save_load_roundtrip graphC5 ⟨by decide, by decide⟩

/-- Filtering then appending an element that fails `p` preserves `any p`,
provided every `p`-positive element passes the filter. -/
theorem any_filter_append_single {α : Type} (l : List α) (q p : α → Bool)
    (x : α) (hx : p x = false) (hq : ∀ a, p a = true → q a = true) :
    ((l.filter q) ++ [x]).any p = l.any p := by
  induction l with
  | nil => simp [hx]
  | cons a rest ih =>
      by_cases hqa : q a = true
      · simp only [List.filter_cons, hqa, if_true, List.cons_append,
          List.any_cons, ih]
      · have hpa : p a = false := by
          cases hpa : p a
          · rfl
          · exact absurd (hq a hpa) hqa
        simp only [List.filter_cons, hqa, if_false, List.any_cons, hpa,
          Bool.false_or, ih, Bool.false_eq_true]

/-- After `EpisodicMemory.store r`, the stored record's id is present. -/
theorem EpisodicMemory.hasId_store_self_ep (ep : EpisodicMemory)
    (r : MemoryRecord) : (ep.store r).hasId r.memory_id = true := by
  simp [EpisodicMemory.store, EpisodicMemory.hasId]

/-- `EpisodicMemory.store r` does not change membership of other ids. -/
theorem EpisodicMemory.hasId_store_ne (ep : EpisodicMemory)
    (r : MemoryRecord) (id : String) (h : id ≠ r.memory_id) :
    (ep.store r).hasId id = ep.hasId id := by
  unfold EpisodicMemory.store EpisodicMemory.hasId
  exact any_filter_append_single ep.rows _ _ _
    (by simp [h.symm])
    (fun a ha => by
      simp only [decide_eq_true_eq] at ha
      simp [ha, h])

/-- After `SemanticMemory.store r`, the stored record's id is present. -/
theorem SemanticMemory.hasId_store_self_sem (sm : SemanticMemory)
    (r : MemoryRecord) : (sm.store r).hasId r.memory_id = true := by
  unfold SemanticMemory.store SemanticMemory.hasId
  split
  · rename_i hany
    rw [List.any_eq_true] at hany ⊢
    obtain ⟨x, hx, hxid⟩ := hany
    refine ⟨_, List.mem_map_of_mem _ hx, ?_⟩
    simp only [decide_eq_true_eq] at hxid
    simp [hxid]
  · simp

/-- With a positive capacity, `push` never raises, and the pushed item ends
up as the newest retained item. -/
theorem push_ok_exists {α : Type} (wm : WorkingMemory α) (it : α)
    (hcap : 1 ≤ wm.capacity) :
    ∃ o wm2, wm.push it = .ok (o, wm2) ∧
      wm2.items.getLast? = some it := by
  unfold WorkingMemory.push
  split
  · rename_i hge
    cases hit : wm.items with
    | nil => rw [hit] at hge; simp at hge; omega
    | cons x xs =>
        rw [hit] at hge
        refine ⟨_, _, rfl, ?_⟩
        rw [List.drop_append_of_le_length ?_]
        · exact List.getLast?_concat _
        · simp only [List.length_append, List.length_cons, List.length_nil]
          omega
  · refine ⟨_, _, rfl, List.getLast?_concat _⟩

/-- C1 (amended): a record stored via `remember` with importance ≥ 0.6 and
a fresh id is always retrievable from the semantic store afterwards, but it
reaches the episodic store exactly when its memory type routes there
(EPISODIC, or WORKING via the default branch) — records of type SEMANTIC or
PROCEDURAL are not cross-referenced into episodic. -/
theorem claim_C1_important_records_cross_reference (mgr : MemoryManager)
    (content : String) (mtype : MemoryType) (imp : ℚ) (dom : String)
    (tags : List String) (src rid oid : String) (now : ℚ)
    (hcap : 1 ≤ mgr.working.capacity) (himp : imp ≥ 3/5)
    (hfresh : mgr.episodic.hasId rid = false) (hne : oid ≠ rid) :
    ∃ r mgr2,
      mgr.remember content mtype imp dom tags src rid oid now =
        .ok (r, mgr2) ∧
      r.memory_id = rid ∧
      mgr2.semantic.hasId rid = true ∧
      (mgr2.episodic.hasId rid = true ↔
        (mtype = .EPISODIC ∨ mtype = .WORKING)) := by
  obtain ⟨o, wm2, hp, -⟩ := push_ok_exists mgr.working
    ({ content := content,
       role := if src = "user" ∨ src = "assistant" then src else "system",
       memory_id := rid } : WMItem) hcap
  unfold MemoryManager.remember
  dsimp only
  rw [hp]
  refine ⟨_, _, rfl, rfl, ?_, ?_⟩
  · -- semantic: the importance ≥ 0.6 cross-reference store always fires
    cases mtype <;>
      simp only [if_pos himp] <;>
      exact SemanticMemory.hasId_store_self_sem ..
  · -- episodic: only the EPISODIC and WORKING routes store the record
    have hep1 :
        (match o with
          | some ov =>
              mgr.episodic.store
                { content := ov.content, memory_type := .EPISODIC,
                  importance := 2/5, domain := "", tags := [],
                  source := "working_overflow", memory_id := oid,
                  timestamp := now, access_count := 0 }
          | none => mgr.episodic).hasId rid = false := by
      cases o with
      | none => exact hfresh
      | some ov =>
          rw [EpisodicMemory.hasId_store_ne _ _ _ (fun h => hne h.symm)]
          exact hfresh
    cases mtype with
    | WORKING =>
        exact iff_of_true (EpisodicMemory.hasId_store_self_ep ..) (Or.inr rfl)
    | EPISODIC =>
        exact iff_of_true (EpisodicMemory.hasId_store_self_ep ..) (Or.inl rfl)
    | SEMANTIC => exact iff_of_false (by simp [hep1]) (by simp)
    | PROCEDURAL => exact iff_of_false (by simp [hep1]) (by simp)

/-- C1 (witness for the amended theorem): an EPISODIC record of importance
0.7 remembered into the empty manager lands in both stores. -/
theorem claim_C1_important_records_cross_reference_witness :
    ∃ r mgr2,
      mgr0.remember "c" .EPISODIC (7/10) "" [] "" "r" "o" 0 =
        .ok (r, mgr2) ∧
      r.memory_id = "r" ∧
      mgr2.semantic.hasId "r" = true ∧
      (mgr2.episodic.hasId "r" = true ↔
        ((MemoryType.EPISODIC = .EPISODIC) ∨
          (MemoryType.EPISODIC = .WORKING))) :=
  claim_C1_important_records_cross_reference mgr0 "c" .EPISODIC (7/10) ""
    [] "" "r" "o" 0 (by decide) (by norm_num) (by decide) (by decide)

unseal Rat.add Rat.mul Rat.inv Rat.sub in
/-- C1 (counterexample): `remember("hello", SEMANTIC, importance=0.8)` on
the empty manager leaves the record retrievable from the semantic store but
NOT from the episodic store, although 0.8 ≥ 0.6. -/
theorem claim_C1_counterexample :
    ((mgr0.remember "hello" .SEMANTIC (8/10) "" [] "" "r1" "o1" 0).map
      (fun p => (p.2.episodic.hasId "r1", p.2.semantic.hasId "r1"))) =
      .ok (false, true) ∧
    ((8 : ℚ)/10 ≥ 3/5) := by
  exact ⟨rfl, by norm_num⟩

/-- C3 (amended): a `remember` call with memory type WORKING pushes the
item into working memory AND stores the record in the episodic store (the
default `else` branch of the routing), leaves the procedural store
untouched, and mirrors into the semantic store exactly when
importance ≥ 0.6. -/
theorem claim_C3_working_routed_to_episodic (mgr : MemoryManager)
    (content : String) (imp : ℚ) (dom : String) (tags : List String)
    (src rid oid : String) (now : ℚ)
    (hcap : 1 ≤ mgr.working.capacity) :
    ∃ r mgr2,
      mgr.remember content .WORKING imp dom tags src rid oid now =
        .ok (r, mgr2) ∧
      mgr2.episodic.hasId rid = true ∧
      mgr2.procedural = mgr.procedural ∧
      (imp < 3/5 → mgr2.semantic = mgr.semantic) ∧
      (imp ≥ 3/5 → mgr2.semantic.hasId rid = true) ∧
      mgr2.working.items.getLast? = some
        { content := content,
          role := if src = "user" ∨ src = "assistant" then src
                  else "system",
          memory_id := rid } := by
  obtain ⟨o, wm2, hp, hlast⟩ := push_ok_exists mgr.working
    ({ content := content,
       role := if src = "user" ∨ src = "assistant" then src else "system",
       memory_id := rid } : WMItem) hcap
  unfold MemoryManager.remember
  dsimp only
  rw [hp]
  refine ⟨_, _, rfl, EpisodicMemory.hasId_store_self_ep .., rfl, ?_, ?_, hlast⟩
  · intro hlt
    rw [if_neg (not_le.mpr hlt)]
  · intro hge
    rw [if_pos hge]
    exact SemanticMemory.hasId_store_self_sem ..

unseal Rat.add Rat.mul Rat.inv Rat.sub in
/-- C3 (witness for the amended theorem): a WORKING record of importance
0.5 remembered into the empty manager is in working memory and in the
episodic store, with semantic and procedural untouched. -/
theorem claim_C3_working_routed_to_episodic_witness :
    ∃ r mgr2,
      mgr0.remember "ctx" .WORKING (1/2) "" [] "" "r" "o" 0 =
        .ok (r, mgr2) ∧
      mgr2.episodic.hasId "r" = true ∧
      mgr2.procedural = mgr0.procedural ∧
      ((1/2 : ℚ) < 3/5 → mgr2.semantic = mgr0.semantic) ∧
      ((1/2 : ℚ) ≥ 3/5 → mgr2.semantic.hasId "r" = true) ∧
      mgr2.working.items.getLast? = some
        { content := "ctx",
          role := if ("" : String) = "user" ∨ ("" : String) = "assistant"
                  then "" else "system",
          memory_id := "r" } :=
  claim_C3_working_routed_to_episodic mgr0 "ctx" (1/2) "" [] "" "r" "o" 0
    (by decide)

unseal Rat.add Rat.mul Rat.inv Rat.sub in
/-- C3 (counterexample): `remember("c", WORKING, importance=0.5)` on the
empty manager stores the record in the episodic store — WORKING-typed
records are not kept in working memory only. -/
theorem claim_C3_counterexample :
    ((mgr0.remember "c" .WORKING (1/2) "" [] "" "r1" "o1" 0).map
      (fun p => p.2.episodic.hasId "r1")) = .ok true := rfl

/-- Saturating increments commute with an outer clamp at 1. -/
theorem min_one_add (x y : ℚ) (hy : 0 ≤ y) :
    min 1 (min 1 x + y) = min 1 (x + y) := by
  rcases le_total x 1 with h | h
  · rw [min_eq_right h]
  · rw [min_eq_left h, min_eq_left (by linarith), min_eq_left (by linarith)]

/-- `find?` over a list whose only satisfying element is the appended last
one returns that element. -/
theorem find_last {α : Type} (p : α → Bool) (l : List α) (e : α)
    (h : ∀ x ∈ l, p x = false) (he : p e = true) :
    (l ++ [e]).find? p = some e := by
  induction l with
  | nil => simp [List.find?, he]
  | cons a rest ih =>
      have ha := h a (List.mem_cons_self a rest)
      simp only [List.cons_append, List.find?_cons, ha]
      exact ih (fun x hx => h x (List.mem_cons_of_mem a hx))

/-- `findEdge` only reads the edge list. -/
theorem findEdge_congr {g g' : CognitiveGraph} (h : g.edges = g'.edges)
    (src tgt : String) (τ : EdgeType) :
    g.findEdge src tgt τ = g'.findEdge src tgt τ := by
  unfold CognitiveGraph.findEdge
  rw [h]

/-- Edge-list characterization of `connect`: reinforce the found same-type
edge, or append a fresh one. -/
theorem connect_edges_characterization (g : CognitiveGraph) (s t : String)
    (τ : EdgeType) (w c now : ℚ) :
    ((g.connect s t τ w c now).1).edges =
      (match g.findEdge (pyNorm s) (pyNorm t) τ with
       | some k => g.edges.map (reinfEdge (pyNorm s) (pyNorm t) k)
       | none => g.edges ++ [freshEdge g s t τ w c now]) := by
  unfold CognitiveGraph.connect
  dsimp only
  set G1 := if g.hasNode (pyNorm s) then g
    else (g.add_concept s .CONCEPT "" (1/2) [] now).1 with hG1
  set G2 := if G1.hasNode (pyNorm t) then G1
    else (G1.add_concept t .CONCEPT "" (1/2) [] now).1 with hG2
  have e2 : G2.edges = g.edges :=
    (connect_pre_edges G1 t now).trans (connect_pre_edges g s now)
  rw [findEdge_congr e2]
  cases hfe : g.findEdge (pyNorm s) (pyNorm t) τ with
  | some k =>
      show (G2.edges.map _) = _
      rw [e2]
      rfl
  | none =>
      show (G2.edges ++ _) = _
      rw [e2]
      rfl

/-- The reinforcement map never changes an edge's endpoints or type. -/
theorem edgeMatch_reinfEdge (s t : String) (τ : EdgeType) (a b : String)
    (k : ℕ) (e : GEdge) :
    edgeMatch s t τ (reinfEdge a b k e) = edgeMatch s t τ e := by
  unfold reinfEdge
  split <;> rfl

/-- Invariant of iterated `connect` on a pair with no prior same-type edge:
after m + 1 calls the graph holds the fresh edge, reinforced m times, at the
end of its edge list, and no other edge matches the triple. -/
theorem connectTimes_spec (g : CognitiveGraph) (s t : String) (τ : EdgeType)
    (w c now : ℚ) (hw1 : w ≤ 1)
    (hnone : g.findEdge (pyNorm s) (pyNorm t) τ = none) :
    ∀ m : ℕ, ∃ l1 : List GEdge,
      (connectTimes g s t τ w c now (m + 1)).edges =
        l1 ++ [{ src := pyNorm s, tgt := pyNorm t,
                 key := (g.edges.filter (fun e =>
                   e.src = pyNorm s ∧ e.tgt = pyNorm t)).length,
                 data := { edge_type := τ,
                           weight := min 1 (w + (m : ℚ) * (1/20)),
                           confidence := c, reinforced_count := m + 1,
                           created_at := now, metadata := [] } }] ∧
      (∀ e ∈ l1, edgeMatch s t τ e = false) := by
  intro m
  induction m with
  | zero =>
      refine ⟨g.edges, ?_, ?_⟩
      · show ((connectTimes g s t τ w c now 0).connect s t τ w c now).1.edges = _
        rw [show connectTimes g s t τ w c now 0 = g from rfl]
        rw [connect_edges_characterization, hnone]
        dsimp only
        have hw : min 1 (w + ((0 : ℕ) : ℚ) * (1/20)) = w := by
          norm_num [min_eq_right hw1]
        rw [hw]
        rfl
      · intro e he
        unfold CognitiveGraph.findEdge at hnone
        rw [Option.map_eq_none'] at hnone
        have := List.find?_eq_none.1 hnone e he
        unfold edgeMatch
        simpa using this
  | succ m ih =>
      obtain ⟨l1, hEq, hl1⟩ := ih
      have hmatch : edgeMatch s t τ
          { src := pyNorm s, tgt := pyNorm t,
            key := (g.edges.filter (fun e =>
              e.src = pyNorm s ∧ e.tgt = pyNorm t)).length,
            data := { edge_type := τ,
                      weight := min 1 (w + (m : ℚ) * (1/20)),
                      confidence := c, reinforced_count := m + 1,
                      created_at := now, metadata := [] } } = true := by
        simp [edgeMatch]
      have hfind : (connectTimes g s t τ w c now (m + 1)).findEdge
          (pyNorm s) (pyNorm t) τ =
          some (g.edges.filter (fun e =>
            e.src = pyNorm s ∧ e.tgt = pyNorm t)).length := by
        unfold CognitiveGraph.findEdge
        rw [hEq, find_last _ _ _ (fun x hx => by
          have := hl1 x hx
          unfold edgeMatch at this
          exact this) (by
          unfold edgeMatch at hmatch
          exact hmatch)]
        rfl
      refine ⟨l1.map (reinfEdge (pyNorm s) (pyNorm t)
        ((g.edges.filter (fun e =>
          e.src = pyNorm s ∧ e.tgt = pyNorm t)).length)), ?_, ?_⟩
      · show ((connectTimes g s t τ w c now (m + 1)).connect
          s t τ w c now).1.edges = _
        rw [connect_edges_characterization, hfind]
        dsimp only
        rw [hEq, List.map_append]
        congr 1
        have hstep : reinfEdge (pyNorm s) (pyNorm t)
            ((g.edges.filter (fun e =>
              e.src = pyNorm s ∧ e.tgt = pyNorm t)).length)
            { src := pyNorm s, tgt := pyNorm t,
              key := (g.edges.filter (fun e =>
                e.src = pyNorm s ∧ e.tgt = pyNorm t)).length,
              data := { edge_type := τ,
                        weight := min 1 (w + (m : ℚ) * (1/20)),
                        confidence := c, reinforced_count := m + 1,
                        created_at := now, metadata := [] } } =
            { src := pyNorm s, tgt := pyNorm t,
              key := (g.edges.filter (fun e =>
                e.src = pyNorm s ∧ e.tgt = pyNorm t)).length,
              data := { edge_type := τ,
                        weight := min 1 (w + ((m : ℚ) + 1) * (1/20)),
                        confidence := c, reinforced_count := m + 1 + 1,
                        created_at := now, metadata := [] } } := by
          unfold reinfEdge
          rw [if_pos ⟨rfl, rfl, rfl⟩]
          have : min 1 (min 1 (w + (m : ℚ) * (1/20)) + 1/20) =
              min 1 (w + ((m : ℚ) + 1) * (1/20)) := by
            rw [min_one_add _ _ (by norm_num)]
            ring_nf
          simp only [this]
        rw [List.map_singleton, hstep]
        push_cast
        rfl
      · intro e he
        obtain ⟨x, hx, rfl⟩ := List.mem_map.1 he
        rw [edgeMatch_reinfEdge]
        exact hl1 x hx

/-- C4: n successive `connect(s, t, τ, w)` calls (n ≥ 2, w ∈ [0,1]) on a
graph with no prior (s, t, τ) edge leave exactly one stored edge of type τ
from s to t, with weight min(1, w + (n−1)·0.05) and reinforced_count n. -/
theorem claim_C4_repeated_connect_reinforces (g : CognitiveGraph)
    (s t : String) (τ : EdgeType) (w conf now : ℚ) (n : ℕ)
    (_hw0 : 0 ≤ w) (hw1 : w ≤ 1) (hn : 2 ≤ n)
    (hnone : g.findEdge (pyNorm s) (pyNorm t) τ = none) :
    (connectTimes g s t τ w conf now n).edges.filter (edgeMatch s t τ) =
      [{ src := pyNorm s, tgt := pyNorm t,
         key := (g.edges.filter (fun e =>
           e.src = pyNorm s ∧ e.tgt = pyNorm t)).length,
         data := { edge_type := τ,
                   weight := min 1 (w + ((n : ℚ) - 1) * (1/20)),
                   confidence := conf, reinforced_count := n,
                   created_at := now, metadata := [] } }] := by
  obtain ⟨m, rfl⟩ : ∃ m, n = m + 1 := ⟨n - 1, by omega⟩
  obtain ⟨l1, hEq, hl1⟩ := connectTimes_spec g s t τ w conf now hw1 hnone m
  rw [hEq, List.filter_append]
  have hfl1 : l1.filter (edgeMatch s t τ) = [] :=
    List.filter_eq_nil_iff.2 (fun e he => by simp [hl1 e he])
  rw [hfl1, List.nil_append, List.filter_cons]
  have hedge : edgeMatch s t τ
      { src := pyNorm s, tgt := pyNorm t,
        key := (g.edges.filter (fun e =>
          e.src = pyNorm s ∧ e.tgt = pyNorm t)).length,
        data := { edge_type := τ,
                  weight := min 1 (w + (m : ℚ) * (1/20)),
                  confidence := conf, reinforced_count := m + 1,
                  created_at := now, metadata := [] } } = true := by
    simp [edgeMatch]
  rw [hedge, if_pos rfl, List.filter_nil]
  have hcast2 : min 1 (w + (m : ℚ) * (1/20)) =
      min 1 (w + (((m + 1 : ℕ) : ℚ) - 1) * (1/20)) := by
    push_cast
    ring_nf
  rw [hcast2]

unseal Rat.add Rat.mul Rat.inv Rat.sub in
/-- C4 (witness): five `connect("a","b",semantic,0.5)` calls from the empty
graph leave one semantic a→b edge with weight min(1, 0.5 + 4·0.05) = 0.70
and reinforced_count 5. -/
theorem claim_C4_repeated_connect_reinforces_witness :
    ((connectTimes gEmpty "a" "b" .SEMANTIC (1/2) 1 0 5).edges.filter
      (edgeMatch "a" "b" .SEMANTIC) =
      [{ src := pyNorm "a", tgt := pyNorm "b",
         key := (gEmpty.edges.filter (fun e =>
           e.src = pyNorm "a" ∧ e.tgt = pyNorm "b")).length,
         data := { edge_type := .SEMANTIC,
                   weight := min 1 ((1/2 : ℚ) + (((5 : ℕ) : ℚ) - 1) * (1/20)),
                   confidence := 1, reinforced_count := 5,
                   created_at := 0, metadata := [] } }]) ∧
    min 1 ((1/2 : ℚ) + (((5 : ℕ) : ℚ) - 1) * (1/20)) = 7/10 := by
  constructor
  · exact claim_C4_repeated_connect_reinforces gEmpty "a" "b" .SEMANTIC
      (1/2) 1 0 5 (by norm_num) (by norm_num) (by norm_num) rfl
  · norm_num

/-- C2 (amended): when the configured provider's chat call fails, the
unguarded `self.adapter.chat(...)` call inside `think` propagates the
provider error to the caller — `think` raises instead of returning a
degraded `ThinkResult` (the deterministic summary response is produced only
in the no-provider configuration). -/
theorem claim_C2_provider_errors_propagate (mind : Subconscious)
    (msg : String) (ic : Bool) (nc : ℕ) (now : ℚ) (i1 o1 i2 o2 : String)
    (rng : Rng) (a : Adapter) (e : String)
    (ha : mind.adapter = some a)
    (hchat : ∀ msgs temp, a.chat msgs temp = .error e) :
    mind.think msg ic nc now i1 o1 i2 o2 rng = .error e := by
  unfold Subconscious.think
  rw [ha]
  dsimp only
  rw [hchat]
  rfl

/-- C2 (witness): a mind wired to an always-failing provider propagates the
provider error out of `think`. -/
theorem claim_C2_provider_errors_propagate_witness :
    mind0.think "ab" true 2 0 "i1" "o1" "i2" "o2" rng0 =
      .error "ProviderError" :=
  claim_C2_provider_errors_propagate mind0 "ab" true 2 0 "i1" "o1" "i2" "o2"
    rng0 failingAdapter "ProviderError" rfl (fun _ _ => rfl)

unseal Rat.add Rat.mul Rat.inv Rat.sub in
/-- C2 (counterexample): at the concrete fresh mind whose provider always
fails, `think("hello")` evaluates to a raised provider error, not to an ok
`ThinkResult` with a degraded response. -/
theorem claim_C2_counterexample :
    mind0.think "hello" true 2 0 "a" "b" "c" "d" rng0 =
      .error "ProviderError" := rfl

end Subc
